import Mathlib

/-!
Verification of the flurry pixelflut server against its specification.

The definitions below are a shallow embedding of the Rust sources:
  * `src/grid.rs`      — the canvas store `Flut<T>` (`index`, `get`, `set`,
    `check_changed`, `update_jpg_buffer`),
  * `src/color.rs`     — `Color` and `Color::to_bytes`,
  * `src/lib.rs`       — `set_pixel_rgba`, `get_pixel`, `Command`, `Response`,
  * `src/protocols/text_protocol.rs` — the text codec (`TextParser`),
  * `src/binary_protocol.rs`         — the binary codec (`BinaryParser`),
  * `src/flutclient.rs` — the session engine (`process_socket`).

Machine integers are modelled as `Nat` with explicit bounds where they
matter; byte streams are `List Nat`, text streams `List Char`; the
interior mutability of the Rust code becomes explicit state passing.
-/

set_option linter.unusedVariables false

namespace Flurry

/-- The `std::io::ErrorKind` values that the flurry sources produce or
inspect.  `panic` stands for control flow the Rust program would abort on
(out-of-range slice indexing, non-exhaustive match). -/
inductive ErrKind where
  | invalidInput
  | unexpectedEof
  | unsupported
  | panic
  deriving DecidableEq, Repr

/-- Embeds `Color` from `src/color.rs`.  Component bytes are `Nat`s; theorems carry
`< 256` bounds where byte-ness matters. -/
inductive Color where
  | RGB24 (r g b : Nat)
  | RGBA32 (r g b a : Nat)
  | W8 (w : Nat)
  deriving DecidableEq, Repr

/-- Embeds `Color::to_bytes` from `src/color.rs` lines 13–19. -/
def Color.to_bytes : Color → List Nat
  | .RGB24 r g b => [r, g, b, 0xff]
  | .RGBA32 r g b a => [r, g, b, a]
  | .W8 w => [w, w, w, 0xff]

/-- Embeds `u32::from_be_bytes([b0,b1,b2,b3])`. -/
def u32_from_be_bytes (b0 b1 b2 b3 : Nat) : Nat :=
  b0 * 2 ^ 24 + b1 * 2 ^ 16 + b2 * 2 ^ 8 + b3

/-- Pack a 4-byte list big-endian into a `u32` value. -/
def bytes4_to_u32 : List Nat → Nat
  | [b0, b1, b2, b3] => u32_from_be_bytes b0 b1 b2 b3
  | _ => 0

/-- The canvas store `Flut<T>` from `src/grid.rs`.  The `SyncUnsafeCell`
fields become plain fields updated by state passing. -/
structure Flut (T : Type) where
  size_x : Nat
  size_y : Nat
  cells : List T
  last_hash : Nat
  jpgbuf : List Nat
  deriving Repr

/-- Embeds `Flut::init` from `src/grid.rs` lines 27–39: every cell set to `value`,
hash `0`, empty jpeg buffer. -/
def Flut.init (size_x size_y : Nat) (value : T) : Flut T :=
  { size_x := size_x, size_y := size_y,
    cells := List.replicate (size_x * size_y) value,
    last_hash := 0, jpgbuf := [] }

/-- Embeds `Flut::get_size`. -/
def Flut.get_size (g : Flut T) : Nat × Nat := (g.size_x, g.size_y)

/-- Embeds `Flut::index` from `src/grid.rs` lines 47–54. -/
def Flut.index (g : Flut T) (x y : Nat) : Option Nat :=
  if x ≥ g.size_x ∨ y ≥ g.size_y then none else some (y * g.size_x + x)

/-- Embeds `Grid::get` for `Flut` (`src/grid.rs` lines 61–64).  The Rust code
indexes the vector with the returned index; under the well-formedness
invariant the index is always in range, so `List.getElem?` is exact. -/
def Flut.get (g : Flut T) (x y : Nat) : Option T :=
  (g.index x y).bind fun idx => g.cells[idx]?

/-- Embeds `Grid::set` for `Flut` (`src/grid.rs` lines 66–71). -/
def Flut.set (g : Flut T) (x y : Nat) (value : T) : Flut T :=
  match g.index x y with
  | none => g
  | some idx => { g with cells := g.cells.set idx value }

/-- Well-formedness: the cell vector has exactly `W·H` entries, as
established by `Flut::init` and preserved by every operation. -/
def Flut.WF (g : Flut T) : Prop := g.cells.length = g.size_x * g.size_y

/-- Apply a sequence of `set` writes left to right. -/
def Flut.applyWrites (g : Flut T) (ws : List (Nat × Nat × T)) : Flut T :=
  ws.foldl (fun g w => g.set w.1 w.2.1 w.2.2) g

/-- Embeds `set_pixel_rgba` from `src/lib.rs` lines 28–38: out-of-range canvas
indices are ignored. -/
def set_pixel_rgba (grids : List (Flut Nat)) (canvas x y rgb : Nat) :
    List (Flut Nat) :=
  match grids[canvas]? with
  | some grid => grids.set canvas (grid.set x y rgb)
  | none => grids

/-- Embeds `get_pixel` from `src/lib.rs` lines 40–50. -/
def get_pixel (grids : List (Flut Nat)) (canvas x y : Nat) : Option Nat :=
  match grids[canvas]? with
  | some grid => grid.get x y
  | none => none

/-- The `u32` stored by `FlutClient::set_pixel_command`
(`src/flutclient.rs` lines 127–145): the color canonicalised to four bytes
and packed big-endian. -/
def set_pixel_color_u32 : Color → Nat
  | .RGB24 red green blue => u32_from_be_bytes red green blue 0xff
  | .RGBA32 red green blue alpha => u32_from_be_bytes red green blue alpha
  | .W8 white => u32_from_be_bytes white white white 0xff

section GridLemmas

variable {T : Type}

theorem Flut.index_eq_some {g : Flut T} {x y : Nat}
    (hx : x < g.size_x) (hy : y < g.size_y) :
    g.index x y = some (y * g.size_x + x) := by
  unfold Flut.index
  rw [if_neg]
  omega

theorem Flut.index_eq_none {g : Flut T} {x y : Nat}
    (h : x ≥ g.size_x ∨ y ≥ g.size_y) : g.index x y = none := by
  unfold Flut.index
  rw [if_pos h]

theorem Flut.index_lt_length {g : Flut T} {x y : Nat} (hWF : g.WF)
    (hx : x < g.size_x) (hy : y < g.size_y) :
    y * g.size_x + x < g.cells.length := by
  rw [hWF]
  calc y * g.size_x + x < y * g.size_x + g.size_x := by omega
    _ = (y + 1) * g.size_x := by ring
    _ ≤ g.size_y * g.size_x := Nat.mul_le_mul_right _ (by omega)
    _ = g.size_x * g.size_y := Nat.mul_comm _ _

theorem Flut.set_size_x (g : Flut T) (x y : Nat) (c : T) :
    (g.set x y c).size_x = g.size_x := by
  unfold Flut.set
  cases g.index x y <;> rfl

theorem Flut.set_size_y (g : Flut T) (x y : Nat) (c : T) :
    (g.set x y c).size_y = g.size_y := by
  unfold Flut.set
  cases g.index x y <;> rfl

theorem Flut.set_WF {g : Flut T} (hWF : g.WF) (x y : Nat) (c : T) :
    (g.set x y c).WF := by
  unfold Flut.WF Flut.set at *
  cases g.index x y <;> simpa

theorem Flut.set_oob {g : Flut T} {x y : Nat}
    (h : x ≥ g.size_x ∨ y ≥ g.size_y) (c : T) : g.set x y c = g := by
  unfold Flut.set
  rw [Flut.index_eq_none h]

theorem Flut.get_oob {g : Flut T} {x y : Nat}
    (h : x ≥ g.size_x ∨ y ≥ g.size_y) : g.get x y = none := by
  unfold Flut.get
  rw [Flut.index_eq_none h]
  rfl

theorem Flut.get_set_self {g : Flut T} {x y : Nat} (hWF : g.WF)
    (hx : x < g.size_x) (hy : y < g.size_y) (c : T) :
    (g.set x y c).get x y = some c := by
  unfold Flut.set
  rw [Flut.index_eq_some hx hy]
  unfold Flut.get
  rw [show (({ g with cells := g.cells.set (y * g.size_x + x) c } : Flut T).index x y) =
      some (y * g.size_x + x) from Flut.index_eq_some hx hy]
  simp only [Option.some_bind]
  exact List.getElem?_set_self' (l := g.cells) (a := c) |>.trans
    (by rw [List.getElem?_eq_getElem (Flut.index_lt_length hWF hx hy)]; rfl)

/-- A write to a coordinate other than `(x,y)` does not change the cell at
`(x,y)`. -/
theorem Flut.get_set_ne {g : Flut T} {x y x2 y2 : Nat} (hWF : g.WF)
    (hx : x < g.size_x) (hy : y < g.size_y)
    (hne : ¬(x2 = x ∧ y2 = y)) (c : T) :
    (g.set x2 y2 c).get x y = g.get x y := by
  unfold Flut.set
  cases hidx : g.index x2 y2 with
  | none => rfl
  | some idx =>
    unfold Flut.index at hidx
    by_cases hin : x2 ≥ g.size_x ∨ y2 ≥ g.size_y
    · rw [if_pos hin] at hidx; cases hidx
    · rw [if_neg hin] at hidx
      push_neg at hin
      have hidx' : idx = y2 * g.size_x + x2 := by
        cases hidx; rfl
      unfold Flut.get
      rw [show (({ g with cells := g.cells.set idx c } : Flut T).index x y) = g.index x y from rfl]
      rw [Flut.index_eq_some hx hy]
      simp only [Option.some_bind]
      have hdiff : idx ≠ y * g.size_x + x := by
        rw [hidx']
        intro heq
        have hx2 : (y2 * g.size_x + x2) % g.size_x = x2 := by
          rw [Nat.add_comm, Nat.add_mul_mod_self_right]
          exact Nat.mod_eq_of_lt hin.1
        have hx1 : (y * g.size_x + x) % g.size_x = x := by
          rw [Nat.add_comm, Nat.add_mul_mod_self_right]
          exact Nat.mod_eq_of_lt hx
        have hxeq : x2 = x := by rw [← hx2, heq, hx1]
        have hyeq : y2 = y := by
          have := heq
          rw [hxeq] at this
          have hpos : 0 < g.size_x := by omega
          have : y2 * g.size_x = y * g.size_x := by omega
          exact Nat.eq_of_mul_eq_mul_right hpos this
        exact hne ⟨hxeq, hyeq⟩
      rw [List.getElem?_set_ne hdiff]

theorem Flut.applyWrites_get {g : Flut T} {x y : Nat} {c : T} (hWF : g.WF)
    (hx : x < g.size_x) (hy : y < g.size_y)
    (hget : g.get x y = some c)
    (ws : List (Nat × Nat × T)) (hws : ∀ w ∈ ws, ¬(w.1 = x ∧ w.2.1 = y)) :
    (g.applyWrites ws).get x y = some c := by
  induction ws generalizing g with
  | nil => exact hget
  | cons w ws ih =>
    have hstep : (g.set w.1 w.2.1 w.2.2).get x y = some c := by
      rw [Flut.get_set_ne hWF hx hy (hws w (by simp)) w.2.2]
      exact hget
    have hWF' := Flut.set_WF hWF w.1 w.2.1 w.2.2
    have hx' : x < (g.set w.1 w.2.1 w.2.2).size_x := by
      rw [Flut.set_size_x]; exact hx
    have hy' : y < (g.set w.1 w.2.1 w.2.2).size_y := by
      rw [Flut.set_size_y]; exact hy
    exact ih hWF' hx' hy' hstep (fun v hv => hws v (by simp [hv]))

end GridLemmas

/-- Claim C1: in-bounds `set` stores at linear index `y·W + x` and a later `get`
with no intervening write to `(x,y)` returns `some c`; out-of-bounds `set`
is a silent no-op leaving every cell unchanged, and out-of-bounds `get`
returns `none`. -/
theorem c1_canvas_store_bounds {T : Type} (g : Flut T) (x y : Nat) (c : T)
    (hWF : g.WF) :
    (x < g.size_x → y < g.size_y →
      ((g.set x y c).cells = g.cells.set (y * g.size_x + x) c ∧
        ∀ ws : List (Nat × Nat × T), (∀ w ∈ ws, ¬(w.1 = x ∧ w.2.1 = y)) →
          ((g.set x y c).applyWrites ws).get x y = some c)) ∧
    (x ≥ g.size_x ∨ y ≥ g.size_y → g.set x y c = g ∧ g.get x y = none) := by
  constructor
  · intro hx hy
    constructor
    · unfold Flut.set
      rw [Flut.index_eq_some hx hy]
    · intro ws hws
      have hWF' := Flut.set_WF hWF x y c
      have hx' : x < (g.set x y c).size_x := by rw [Flut.set_size_x]; exact hx
      have hy' : y < (g.set x y c).size_y := by rw [Flut.set_size_y]; exact hy
      exact Flut.applyWrites_get hWF' hx' hy'
        (Flut.get_set_self hWF hx hy c) ws hws
  · intro h
    exact ⟨Flut.set_oob h c, Flut.get_oob h⟩

/-- Witness for `c1_canvas_store_bounds` on a concrete 3×3 canvas. -/
theorem c1_canvas_store_bounds_witness :
    (Flut.init 3 3 (0 : Nat)).WF ∧
    ((1 < (Flut.init 3 3 (0 : Nat)).size_x → 2 < (Flut.init 3 3 (0 : Nat)).size_y →
      (((Flut.init 3 3 (0 : Nat)).set 1 2 7).cells =
          (Flut.init 3 3 (0 : Nat)).cells.set (2 * (Flut.init 3 3 (0 : Nat)).size_x + 1) 7 ∧
        ∀ ws : List (Nat × Nat × Nat), (∀ w ∈ ws, ¬(w.1 = 1 ∧ w.2.1 = 2)) →
          (((Flut.init 3 3 (0 : Nat)).set 1 2 7).applyWrites ws).get 1 2 = some 7)) ∧
    (1 ≥ (Flut.init 3 3 (0 : Nat)).size_x ∨ 2 ≥ (Flut.init 3 3 (0 : Nat)).size_y →
      (Flut.init 3 3 (0 : Nat)).set 1 2 7 = Flut.init 3 3 (0 : Nat) ∧
        (Flut.init 3 3 (0 : Nat)).get 1 2 = none)) :=
  ⟨rfl, c1_canvas_store_bounds (Flut.init 3 3 (0 : Nat)) 1 2 7 rfl⟩

end Flurry

namespace Flurry

theorem set_pixel_color_u32_eq_to_bytes (col : Color) :
    set_pixel_color_u32 col = bytes4_to_u32 col.to_bytes := by
  cases col <;> rfl

/-- Claim C2: a `SetPixel` stores exactly the canonical 4-byte form of the color
(`W8(w) ↦ (w,w,w,255)`, `RGB24 ↦ (r,g,b,255)`, `RGBA32` identity), packed
big-endian, and the stored value is the same for every prior grid content
(no blending): the equation holds for all `grids` and its right-hand side
does not mention them. -/
theorem c2_color_canonical_replace (grids : List (Flut Nat)) (canvas x y : Nat)
    (col : Color) (grid : Flut Nat)
    (hg : grids[canvas]? = some grid) (hWF : grid.WF)
    (hx : x < grid.size_x) (hy : y < grid.size_y) :
    (∀ w, Color.to_bytes (.W8 w) = [w, w, w, 255]) ∧
    (∀ r g b, Color.to_bytes (.RGB24 r g b) = [r, g, b, 255]) ∧
    (∀ r g b a, Color.to_bytes (.RGBA32 r g b a) = [r, g, b, a]) ∧
    set_pixel_color_u32 col = bytes4_to_u32 col.to_bytes ∧
    get_pixel (set_pixel_rgba grids canvas x y (set_pixel_color_u32 col)) canvas x y =
      some (bytes4_to_u32 col.to_bytes) := by
  refine ⟨fun w => rfl, fun r g b => rfl, fun r g b a => rfl,
    set_pixel_color_u32_eq_to_bytes col, ?_⟩
  unfold set_pixel_rgba
  rw [hg]
  unfold get_pixel
  have h2 : (grids.set canvas (grid.set x y (set_pixel_color_u32 col)))[canvas]? =
      some (grid.set x y (set_pixel_color_u32 col)) := by
    rw [List.getElem?_set_self', hg]
    rfl
  rw [h2]
  show (grid.set x y (set_pixel_color_u32 col)).get x y = some (bytes4_to_u32 col.to_bytes)
  rw [Flut.get_set_self hWF hx hy, set_pixel_color_u32_eq_to_bytes]

/-- Witness for `c2_color_canonical_replace` on a 2×2 canvas with a fully
transparent RGBA color (alpha 0). -/
theorem c2_color_canonical_replace_witness :
    ([Flut.init 2 2 (0 : Nat)][0]? = some (Flut.init 2 2 (0 : Nat)) ∧
      (Flut.init 2 2 (0 : Nat)).WF ∧
      0 < (Flut.init 2 2 (0 : Nat)).size_x ∧ 1 < (Flut.init 2 2 (0 : Nat)).size_y) ∧
    ((∀ w, Color.to_bytes (.W8 w) = [w, w, w, 255]) ∧
      (∀ r g b, Color.to_bytes (.RGB24 r g b) = [r, g, b, 255]) ∧
      (∀ r g b a, Color.to_bytes (.RGBA32 r g b a) = [r, g, b, a]) ∧
      set_pixel_color_u32 (.RGBA32 9 8 7 0) = bytes4_to_u32 (Color.to_bytes (.RGBA32 9 8 7 0)) ∧
      get_pixel (set_pixel_rgba [Flut.init 2 2 (0 : Nat)] 0 0 1
          (set_pixel_color_u32 (.RGBA32 9 8 7 0))) 0 0 1 =
        some (bytes4_to_u32 (Color.to_bytes (.RGBA32 9 8 7 0)))) :=
  ⟨⟨rfl, rfl, by decide, by decide⟩,
    c2_color_canonical_replace [Flut.init 2 2 (0 : Nat)] 0 0 1 (.RGBA32 9 8 7 0)
      (Flut.init 2 2 (0 : Nat)) rfl rfl (by decide) (by decide)⟩

/-- Embeds `Protocol` from `src/lib.rs` lines 64–67. -/
inductive Protocol where
  | text
  | binary
  deriving DecidableEq, Repr

/-- Embeds `Command` from `src/lib.rs` lines 70–78. -/
inductive Command where
  | help
  | protocols
  | size (canvas : Nat)
  | getPixel (canvas x y : Nat)
  | setPixel (canvas x y : Nat) (color : Color)
  | changeCanvas (canvas : Nat)
  | changeProtocol (p : Protocol)
  deriving DecidableEq, Repr

/-- Embeds `Response` from `src/lib.rs` lines 81–86 (the `Protocols` payload is
irrelevant to the claims and elided to its constructor). -/
inductive Response where
  | help
  | protocols
  | size (x y : Nat)
  | getPixel (x y : Nat) (color : Nat × Nat × Nat)
  deriving DecidableEq, Repr

def SIZE_BIN : Nat := 115
def HELP_BIN : Nat := 104
def GET_PX_BIN : Nat := 32
def SET_PX_RGB_BIN : Nat := 128
def SET_PX_RGBA_BIN : Nat := 129
def SET_PX_W_BIN : Nat := 130

/-- Embeds `tokio::io::AsyncReadExt::read_u8` on a byte stream: one byte, or
`UnexpectedEof` on a cleanly closed stream. -/
def read_u8 : List Nat → Except ErrKind (Nat × List Nat)
  | [] => .error .unexpectedEof
  | b :: rest => .ok (b, rest)

/-- Embeds `tokio::io::AsyncReadExt::read_u16_le`: two bytes, little-endian. -/
def read_u16_le : List Nat → Except ErrKind (Nat × List Nat)
  | lo :: hi :: rest => .ok (lo + 256 * hi, rest)
  | _ => .error .unexpectedEof

/-- Embeds `BinaryParser::parse` from `src/binary_protocol.rs` lines 23–91.  The
Rust `match` on the command byte becomes a chain of equality tests against
the same constants; `?` on the reads becomes `Except` binding. -/
def BinaryParser.parse (input : List Nat) : Except ErrKind (Command × List Nat) := do
  let (command, input) ← read_u8 input
  if command = HELP_BIN then
    return (.help, input)
  else if command = SIZE_BIN then
    let (canvas, input) ← read_u8 input
    return (.size canvas, input)
  else if command = GET_PX_BIN then
    let (canvas, input) ← read_u8 input
    let (horizontal, input) ← read_u16_le input
    let (vertical, input) ← read_u16_le input
    return (.getPixel canvas horizontal vertical, input)
  else if command = SET_PX_W_BIN then
    let (canvas, input) ← read_u8 input
    let (horizontal, input) ← read_u16_le input
    let (vertical, input) ← read_u16_le input
    let (white, input) ← read_u8 input
    return (.setPixel canvas horizontal vertical (.W8 white), input)
  else if command = SET_PX_RGB_BIN then
    let (canvas, input) ← read_u8 input
    let (horizontal, input) ← read_u16_le input
    let (vertical, input) ← read_u16_le input
    let (red, input) ← read_u8 input
    let (green, input) ← read_u8 input
    let (blue, input) ← read_u8 input
    return (.setPixel canvas horizontal vertical (.RGB24 red green blue), input)
  else if command = SET_PX_RGBA_BIN then
    let (canvas, input) ← read_u8 input
    let (horizontal, input) ← read_u16_le input
    let (vertical, input) ← read_u16_le input
    let (red, input) ← read_u8 input
    let (green, input) ← read_u8 input
    let (blue, input) ← read_u8 input
    let (alpha, input) ← read_u8 input
    return (.setPixel canvas horizontal vertical (.RGBA32 red green blue alpha), input)
  else
    .error .invalidInput

/-- Modelled from the spec (§4.4.2 frame table): the serialization of a
binary-codec command.  The repository contains no client-side serializer;
the spec's table prescribes this byte layout (coordinates little-endian
u16). -/
def serialize_bin : Command → List Nat
  | .help => [HELP_BIN]
  | .size c => [SIZE_BIN, c]
  | .getPixel c x y => [GET_PX_BIN, c, x % 256, x / 256, y % 256, y / 256]
  | .setPixel c x y (.W8 w) =>
      [SET_PX_W_BIN, c, x % 256, x / 256, y % 256, y / 256, w]
  | .setPixel c x y (.RGB24 r g b) =>
      [SET_PX_RGB_BIN, c, x % 256, x / 256, y % 256, y / 256, r, g, b]
  | .setPixel c x y (.RGBA32 r g b a) =>
      [SET_PX_RGBA_BIN, c, x % 256, x / 256, y % 256, y / 256, r, g, b, a]
  | _ => []

theorem read_u16_le_le_bytes (x : Nat) (rest : List Nat) :
    read_u16_le (x % 256 :: x / 256 :: rest) = .ok (x, rest) := by
  show Except.ok (x % 256 + 256 * (x / 256), rest) = Except.ok (x, rest)
  rw [Nat.mod_add_div]

/-- Claim C7: parsing the frame-table serialization of any binary-expressible
command returns that command (with the remaining stream untouched), and any
frame whose first byte is none of the six command bytes is an
`InvalidInput` error. -/
theorem c7_binary_command_roundtrip :
    (∀ rest, BinaryParser.parse (serialize_bin .help ++ rest) = .ok (.help, rest)) ∧
    (∀ c rest, BinaryParser.parse (serialize_bin (.size c) ++ rest) = .ok (.size c, rest)) ∧
    (∀ c x y rest, x < 65536 → y < 65536 →
      BinaryParser.parse (serialize_bin (.getPixel c x y) ++ rest) =
        .ok (.getPixel c x y, rest)) ∧
    (∀ c x y col rest, x < 65536 → y < 65536 →
      BinaryParser.parse (serialize_bin (.setPixel c x y col) ++ rest) =
        .ok (.setPixel c x y col, rest)) ∧
    (∀ b rest, b ≠ HELP_BIN → b ≠ SIZE_BIN → b ≠ GET_PX_BIN → b ≠ SET_PX_W_BIN →
      b ≠ SET_PX_RGB_BIN → b ≠ SET_PX_RGBA_BIN →
      BinaryParser.parse (b :: rest) = .error .invalidInput) := by
  refine ⟨fun rest => rfl, fun c rest => rfl, ?_, ?_, ?_⟩
  · intro c x y rest hx hy
    have h : BinaryParser.parse (serialize_bin (.getPixel c x y) ++ rest) =
        .ok (.getPixel c (x % 256 + 256 * (x / 256)) (y % 256 + 256 * (y / 256)), rest) := rfl
    rw [h, Nat.mod_add_div, Nat.mod_add_div]
  · intro c x y col rest hx hy
    cases col with
    | RGB24 r g b =>
      have h : BinaryParser.parse (serialize_bin (.setPixel c x y (.RGB24 r g b)) ++ rest) =
          .ok (.setPixel c (x % 256 + 256 * (x / 256)) (y % 256 + 256 * (y / 256))
            (.RGB24 r g b), rest) := rfl
      rw [h, Nat.mod_add_div, Nat.mod_add_div]
    | RGBA32 r g b a =>
      have h : BinaryParser.parse (serialize_bin (.setPixel c x y (.RGBA32 r g b a)) ++ rest) =
          .ok (.setPixel c (x % 256 + 256 * (x / 256)) (y % 256 + 256 * (y / 256))
            (.RGBA32 r g b a), rest) := rfl
      rw [h, Nat.mod_add_div, Nat.mod_add_div]
    | W8 w =>
      have h : BinaryParser.parse (serialize_bin (.setPixel c x y (.W8 w)) ++ rest) =
          .ok (.setPixel c (x % 256 + 256 * (x / 256)) (y % 256 + 256 * (y / 256))
            (.W8 w), rest) := rfl
      rw [h, Nat.mod_add_div, Nat.mod_add_div]
  · intro b rest h1 h2 h3 h4 h5 h6
    unfold BinaryParser.parse
    simp only [read_u8, bind, Except.bind]
    rw [if_neg h1, if_neg h2, if_neg h3, if_neg h4, if_neg h5, if_neg h6]

/-- Witness for `c7_binary_command_roundtrip` at concrete frames. -/
theorem c7_binary_command_roundtrip_witness :
    ((0x4269 : Nat) < 65536 ∧ (0x6942 : Nat) < 65536) ∧
    BinaryParser.parse (serialize_bin (.setPixel 1 0x4269 0x6942 (.RGBA32 0x82 0 0xff 0xa0)) ++ []) =
      .ok (.setPixel 1 0x4269 0x6942 (.RGBA32 0x82 0 0xff 0xa0), []) :=
  ⟨⟨by decide, by decide⟩,
    (c7_binary_command_roundtrip.2.2.2.1) 1 0x4269 0x6942 (.RGBA32 0x82 0 0xff 0xa0) []
      (by decide) (by decide)⟩

end Flurry

namespace Flurry

/-- ASCII whitespace as tested by `str::trim` on the inputs relevant here
(`' '`, tab, LF, CR; Rust additionally trims other Unicode whitespace,
which no claim involves). -/
def isWS (c : Char) : Bool :=
  c = ' ' || c = '\t' || c = '\n' || c = '\r'

/-- Embeds `str::trim`: drop whitespace from both ends. -/
def trimChars (l : List Char) : List Char :=
  ((l.dropWhile isWS).reverse.dropWhile isWS).reverse

/-- Embeds `str::split(' ')`: split at every single space, keeping empty pieces
(`"a  b" ↦ ["a", "", "b"]`, `"" ↦ [""]`). -/
def splitSp : List Char → List (List Char)
  | [] => [[]]
  | c :: r =>
    if c = ' ' then [] :: splitSp r
    else
      match splitSp r with
      | t :: ts => (c :: t) :: ts
      | [] => [[c]]

/-- Embeds `str::starts_with`. -/
def starts_with : List Char → List Char → Bool
  | [], _ => true
  | _ :: _, [] => false
  | p :: ps, c :: cs => p = c && starts_with ps cs

/-- Embeds `tokio::io::AsyncBufReadExt::read_line`: everything up to and including
the first LF; at end of stream, whatever remains (the empty line on a
cleanly closed stream). -/
def read_line : List Char → List Char × List Char
  | [] => ([], [])
  | c :: rest =>
    if c = '\n' then ([c], rest)
    else
      let (l, r) := read_line rest
      (c :: l, r)

/-- One hexadecimal digit, either case, as in `val`
(`src/protocols/text_protocol.rs` lines 27–40). -/
def hex_digit_val (c : Char) : Except ErrKind Nat :=
  if 'A' ≤ c ∧ c ≤ 'F' then .ok (c.toNat - 'A'.toNat + 10)
  else if 'a' ≤ c ∧ c ≤ 'f' then .ok (c.toNat - 'a'.toNat + 10)
  else if '0' ≤ c ∧ c ≤ '9' then .ok (c.toNat - '0'.toNat)
  else .error .invalidInput

/-- Embeds `val` from `src/protocols/text_protocol.rs` lines 27–40:
`(hi << 4) | lo`. -/
def val (c1 c2 : Char) : Except ErrKind Nat :=
  match hex_digit_val c1, hex_digit_val c2 with
  | .ok h, .ok l => .ok ((h <<< 4) ||| l)
  | .error e, _ => .error e
  | _, .error e => .error e

/-- Embeds `parse_color` from `src/protocols/text_protocol.rs` lines 42–65: match
on the byte length with hex-validity guards, anything else is
`InvalidInput`. -/
def parse_color (color : List Char) : Except ErrKind Color :=
  match color with
  | [a1, a2] =>
    match val a1 a2 with
    | .ok w => .ok (.W8 w)
    | .error _ => .error .invalidInput
  | [a1, a2, a3, a4, a5, a6] =>
    match val a1 a2, val a3 a4, val a5 a6 with
    | .ok r, .ok g, .ok b => .ok (.RGB24 r g b)
    | _, _, _ => .error .invalidInput
  | [a1, a2, a3, a4, a5, a6, a7, a8] =>
    match val a1 a2, val a3 a4, val a5 a6, val a7 a8 with
    | .ok r, .ok g, .ok b, .ok a => .ok (.RGBA32 r g b a)
    | _, _, _, _ => .error .invalidInput
  | _ => .error .invalidInput

/-- Digit-accumulation loop of Rust `str::parse::<uN>` (std
`from_str_radix`, base 10): checked multiply-add against the type maximum;
`bound` is `max + 1`. -/
def parse_uint_digits (bound : Nat) : Nat → List Char → Option Nat
  | acc, [] => some acc
  | acc, c :: r =>
    if c.isDigit then
      let acc2 := acc * 10 + (c.toNat - '0'.toNat)
      if acc2 < bound then parse_uint_digits bound acc2 r else none
    else none

/-- Rust `str::parse::<uN>`: an optional leading `+`, then at least one
decimal digit; overflow or any other character fails. -/
def parse_uint (bound : Nat) (s : List Char) : Option Nat :=
  match s with
  | [] => none
  | c :: r =>
    if c = '+' then
      match r with
      | [] => none
      | _ => parse_uint_digits bound 0 r
    else parse_uint_digits bound 0 (c :: r)

/-- Embeds `str::parse::<u16>` (the `Coordinate` type). -/
def parse_u16 (s : List Char) : Option Nat := parse_uint 65536 s

/-- Embeds `str::parse::<u8>` (the `Canvas` type). -/
def parse_u8 (s : List Char) : Option Nat := parse_uint 256 s

/-- Embeds `GRID_LENGTH` from `src/config.rs`. -/
def GRID_LENGTH : Nat := 1

/-- Embeds `TextParser` from `src/protocols/text_protocol.rs` lines 12–15. -/
structure TextParser where
  canvas : Nat
  deriving DecidableEq, Repr

/-- Embeds `TextParser::parse_pixel` (lines 72–89): tokenize the trimmed line on
single spaces, parse `x` and `y` as u16, then either `GetPixel` or
`SetPixel` with the fourth token as color; later tokens are ignored. -/
def TextParser.parse_pixel (canvas : Nat) (line : List Char) :
    Except ErrKind Command :=
  match splitSp (trimChars line) with
  | _command :: x_coordinate :: y_coordinate :: rest =>
    match parse_u16 x_coordinate, parse_u16 y_coordinate with
    | some horizontal, some vertical =>
      match rest with
      | [] => .ok (.getPixel canvas horizontal vertical)
      | color :: _ =>
        match parse_color color with
        | .ok c => .ok (.setPixel canvas horizontal vertical c)
        | .error e => .error e
    | _, _ => .error .invalidInput
  | _ => .error .invalidInput

/-- Embeds `TextParser::parse_canvas` (lines 90–100); tokens after `n` are
ignored. -/
def TextParser.parse_canvas (line : List Char) : Except ErrKind Command :=
  match splitSp (trimChars line) with
  | _command :: canvas :: _ =>
    match parse_u8 canvas with
    | some c => .ok (.changeCanvas c)
    | none => .error .invalidInput
  | _ => .error .invalidInput

/-- Embeds `TextParser::parse_protocol` (lines 101–111); tokens after the protocol
name are ignored. -/
def TextParser.parse_protocol (line : List Char) : Except ErrKind Command :=
  match splitSp (trimChars line) with
  | _command :: protocol :: _ =>
    if protocol = "binary".toList then .ok (.changeProtocol .binary)
    else if protocol = "text".toList then .ok (.changeProtocol .text)
    else .error .invalidInput
  | _ => .error .invalidInput

/-- The line dispatch of `TextParser::parse` (lines 114–134):
`starts_with` tests in source order; any line matching no test — including
the empty line produced by a cleanly closed stream — is `InvalidInput`. -/
def TextParser.parse_line (p : TextParser) (line : List Char) :
    Except ErrKind Command :=
  if starts_with "HELP".toList line then .ok .help
  else if starts_with "PROTOCOLS".toList line then .ok .protocols
  else if starts_with "SIZE".toList line then .ok (.size p.canvas)
  else if starts_with "PX ".toList line then TextParser.parse_pixel p.canvas line
  else if starts_with "CANVAS ".toList line then TextParser.parse_canvas line
  else if starts_with "PROTOCOL ".toList line then TextParser.parse_protocol line
  else .error .invalidInput

/-- Embeds `TextParser::parse` on a stream: read one line, dispatch on it; the
unconsumed stream is returned alongside the command. -/
def TextParser.parse (p : TextParser) (input : List Char) :
    Except ErrKind (Command × List Char) :=
  let (line, rest) := read_line input
  match p.parse_line line with
  | .ok c => .ok (c, rest)
  | .error e => .error e

/-- Embeds `TextParser::change_canvas` (`IOProtocol` impl, lines 136–145). -/
def TextParser.change_canvas (p : TextParser) (canvas : Nat) :
    Except ErrKind TextParser :=
  if canvas < GRID_LENGTH then .ok { canvas := canvas }
  else .error .invalidInput

/-- Embeds `BinaryParser::change_canvas` (`src/binary_protocol.rs` lines 93–97):
the binary codec is stateless, so this is always `Unsupported`. -/
def BinaryParser.change_canvas (canvas : Nat) : Except ErrKind Unit :=
  .error .unsupported

/-- Decimal rendering of Rust `format` for unsigned integers. -/
def dec_chars (n : Nat) : List Char :=
  if n = 0 then ['0']
  else (Nat.digits 10 n).reverse.map fun d => Char.ofNat (48 + d)

/-- One uppercase hex digit, as produced by the `02X` format used in text
responses. -/
def hex_char_upper (d : Nat) : Char :=
  if d < 10 then Char.ofNat (48 + d) else Char.ofNat (65 + (d - 10))

/-- One lowercase hex digit (accepted on input, never produced). -/
def hex_char_lower (d : Nat) : Char :=
  if d < 10 then Char.ofNat (48 + d) else Char.ofNat (97 + (d - 10))

/-- Embeds the `02X` rendering of one byte. -/
def hex2_upper (b : Nat) : List Char := [hex_char_upper (b / 16), hex_char_upper (b % 16)]

/-- Lowercase two-digit hex rendering of one byte. -/
def hex2_lower (b : Nat) : List Char := [hex_char_lower (b / 16), hex_char_lower (b % 16)]

/-- Embeds `HELP_TEXT` from `src/config.rs`. -/
def HELP_TEXT : String := "Flurry is a pixelflut implementation, this means you can use commands to get and set pixels in the canvas\nSIZE returns the size of the canvas\nPX {x} {y} returns the color of the pixel at {x}, {y}\nIf you include a color in hex format you set a pixel instead\nPX {x} {y} {RGB} sets the color of the pixel at {x}, {y} to the rgb value\nPX {x} {y} {RGBA} blends the pixel at {x}, {y} with the rgb value weighted by the a\nPX {x} {y} {W} sets the color of the pixel at {x}, {y} to the grayscale value\n"

/-- Embeds `TextParser::unparse` (`Responder` impl, lines 147–182).  The
`Protocols` payload rendering is irrelevant to every claim and elided. -/
def TextParser.unparse : Response → List Char
  | .help => HELP_TEXT.toList
  | .protocols => []
  | .size x y => "SIZE ".toList ++ dec_chars x ++ [' '] ++ dec_chars y ++ ['\n']
  | .getPixel x y color =>
      "PX ".toList ++ dec_chars x ++ [' '] ++ dec_chars y ++ [' '] ++
        hex2_upper color.1 ++ hex2_upper color.2.1 ++ hex2_upper color.2.2 ++ ['\n']

end Flurry

namespace Flurry

/-! Decimal and hexadecimal rendering round-trips. -/

/-- Big-endian decimal accumulation. -/
def foldDec (acc : Nat) (ds : List Nat) : Nat :=
  ds.foldl (fun a d => a * 10 + d) acc

theorem foldDec_ge (ds : List Nat) : ∀ acc, acc ≤ foldDec acc ds := by
  induction ds with
  | nil => intro acc; exact Nat.le_refl acc
  | cons d ds ih =>
    intro acc
    calc acc ≤ acc * 10 + d := by omega
      _ ≤ foldDec (acc * 10 + d) ds := ih _

theorem foldDec_append (acc : Nat) (l1 l2 : List Nat) :
    foldDec acc (l1 ++ l2) = foldDec (foldDec acc l1) l2 :=
  List.foldl_append _ _ _ _

theorem foldDec_reverse (L : List Nat) :
    foldDec 0 L.reverse = Nat.ofDigits 10 L := by
  induction L with
  | nil => rfl
  | cons d L ih =>
    rw [List.reverse_cons, foldDec_append, ih, Nat.ofDigits_cons]
    show Nat.ofDigits 10 L * 10 + d = d + 10 * Nat.ofDigits 10 L
    omega

theorem digit_char_spec : ∀ d, d < 10 →
    (Char.ofNat (48 + d)).isDigit = true ∧
    (Char.ofNat (48 + d)).toNat - '0'.toNat = d ∧
    Char.ofNat (48 + d) ≠ '+' ∧
    isWS (Char.ofNat (48 + d)) = false ∧
    Char.ofNat (48 + d) ≠ ' ' ∧
    Char.ofNat (48 + d) ≠ '\n' := by decide

theorem parse_uint_digits_map (bound : Nat) (ds : List Nat) :
    ∀ acc, (∀ d ∈ ds, d < 10) → foldDec acc ds < bound →
    parse_uint_digits bound acc (ds.map fun d => Char.ofNat (48 + d)) =
      some (foldDec acc ds) := by
  induction ds with
  | nil => intro acc _ _; rfl
  | cons d ds ih =>
    intro acc hd hb
    have hd10 : d < 10 := hd d (by simp)
    have hspec := digit_char_spec d hd10
    have hfold : foldDec acc (d :: ds) = foldDec (acc * 10 + d) ds := rfl
    have hge : acc * 10 + d ≤ foldDec acc (d :: ds) := by
      rw [hfold]
      exact foldDec_ge ds (acc * 10 + d)
    have hlt : acc * 10 + d < bound := lt_of_le_of_lt hge hb
    rw [List.map_cons]
    show (if (Char.ofNat (48 + d)).isDigit = true then
        let acc2 := acc * 10 + ((Char.ofNat (48 + d)).toNat - '0'.toNat)
        if acc2 < bound then parse_uint_digits bound acc2 (ds.map fun d => Char.ofNat (48 + d))
        else none
      else none) = some (foldDec acc (d :: ds))
    rw [if_pos hspec.1]
    show (if acc * 10 + ((Char.ofNat (48 + d)).toNat - '0'.toNat) < bound then
        parse_uint_digits bound (acc * 10 + ((Char.ofNat (48 + d)).toNat - '0'.toNat))
          (ds.map fun d => Char.ofNat (48 + d))
      else none) = some (foldDec acc (d :: ds))
    rw [hspec.2.1, if_pos hlt, hfold]
    exact ih (acc * 10 + d) (fun x hx => hd x (List.mem_cons_of_mem d hx))
      (by rw [← hfold]; exact hb)

theorem dec_chars_shape (n : Nat) :
    ∃ ds : List Nat, (∀ d ∈ ds, d < 10) ∧ ds ≠ [] ∧ foldDec 0 ds = n ∧
      dec_chars n = ds.map fun d => Char.ofNat (48 + d) := by
  by_cases h0 : n = 0
  · subst h0
    exact ⟨[0], by simp, by simp, rfl, rfl⟩
  · refine ⟨(Nat.digits 10 n).reverse, ?_, ?_, ?_, ?_⟩
    · intro d hd
      exact Nat.digits_lt_base (by norm_num) (List.mem_reverse.mp hd)
    · simp only [ne_eq, List.reverse_eq_nil_iff]
      exact fun h => h0 (Nat.digits_eq_nil_iff_eq_zero.mp h)
    · rw [foldDec_reverse]
      exact Nat.ofDigits_digits 10 n
    · unfold dec_chars
      rw [if_neg h0]

theorem dec_chars_no_ws (n : Nat) :
    ∀ c ∈ dec_chars n, isWS c = false ∧ c ≠ ' ' ∧ c ≠ '\n' := by
  obtain ⟨ds, hds, _, _, hmap⟩ := dec_chars_shape n
  rw [hmap]
  intro c hc
  obtain ⟨d, hd, rfl⟩ := List.mem_map.mp hc
  have := digit_char_spec d (hds d hd)
  exact ⟨this.2.2.2.1, this.2.2.2.2.1, this.2.2.2.2.2⟩

theorem parse_uint_dec_chars (bound n : Nat) (h : n < bound) :
    parse_uint bound (dec_chars n) = some n := by
  obtain ⟨ds, hds, hne, hfold, hmap⟩ := dec_chars_shape n
  obtain ⟨d, ds', rfl⟩ : ∃ d ds', ds = d :: ds' := by
    cases ds with
    | nil => exact absurd rfl hne
    | cons a b => exact ⟨a, b, rfl⟩
  rw [hmap, List.map_cons]
  show parse_uint bound (Char.ofNat (48 + d) :: ds'.map fun d => Char.ofNat (48 + d)) = some n
  simp only [parse_uint]
  rw [if_neg (digit_char_spec d (hds d (by simp))).2.2.1]
  show parse_uint_digits bound 0 ((d :: ds').map fun d => Char.ofNat (48 + d)) = some n
  rw [parse_uint_digits_map bound (d :: ds') 0 hds (by rw [hfold]; exact h), hfold]

theorem parse_u16_dec_chars (n : Nat) (h : n < 65536) :
    parse_u16 (dec_chars n) = some n := parse_uint_dec_chars 65536 n h

theorem parse_u8_dec_chars (n : Nat) (h : n < 256) :
    parse_u8 (dec_chars n) = some n := parse_uint_dec_chars 256 n h

instance {ε α : Type} [DecidableEq ε] [DecidableEq α] : DecidableEq (Except ε α) :=
  fun x y =>
    match x, y with
    | .ok a, .ok b =>
      if h : a = b then isTrue (by rw [h]) else isFalse (by intro he; cases he; exact h rfl)
    | .error a, .error b =>
      if h : a = b then isTrue (by rw [h]) else isFalse (by intro he; cases he; exact h rfl)
    | .ok _, .error _ => isFalse (by intro h; cases h)
    | .error _, .ok _ => isFalse (by intro h; cases h)

set_option maxRecDepth 8192 in
theorem val_hex_upper : ∀ b, b < 256 →
    val (hex_char_upper (b / 16)) (hex_char_upper (b % 16)) = .ok b := by decide

set_option maxRecDepth 8192 in
theorem val_hex_lower : ∀ b, b < 256 →
    val (hex_char_lower (b / 16)) (hex_char_lower (b % 16)) = .ok b := by decide

theorem hex_char_no_ws : ∀ d, d < 16 →
    (isWS (hex_char_upper d) = false ∧ hex_char_upper d ≠ ' ' ∧ hex_char_upper d ≠ '\n') ∧
    (isWS (hex_char_lower d) = false ∧ hex_char_lower d ≠ ' ' ∧ hex_char_lower d ≠ '\n') := by
  decide

theorem hex2_upper_no_ws (b : Nat) (hb : b < 256) :
    ∀ c ∈ hex2_upper b, isWS c = false ∧ c ≠ ' ' ∧ c ≠ '\n' := by
  intro c hc
  have h1 := (hex_char_no_ws (b / 16) (by omega)).1
  have h2 := (hex_char_no_ws (b % 16) (by omega)).1
  rw [hex2_upper] at hc
  rcases List.mem_cons.mp hc with rfl | hc2
  · exact h1
  · rcases List.mem_cons.mp hc2 with rfl | hc3
    · exact h2
    · cases hc3

theorem hex2_lower_no_ws (b : Nat) (hb : b < 256) :
    ∀ c ∈ hex2_lower b, isWS c = false ∧ c ≠ ' ' ∧ c ≠ '\n' := by
  intro c hc
  have h1 := (hex_char_no_ws (b / 16) (by omega)).2
  have h2 := (hex_char_no_ws (b % 16) (by omega)).2
  rw [hex2_lower] at hc
  rcases List.mem_cons.mp hc with rfl | hc2
  · exact h1
  · rcases List.mem_cons.mp hc2 with rfl | hc3
    · exact h2
    · cases hc3

theorem parse_color_two (a1 a2 : Char) (w : Nat) (h : val a1 a2 = .ok w) :
    parse_color [a1, a2] = .ok (.W8 w) := by
  simp only [parse_color]
  rw [h]

theorem parse_color_six (a1 a2 a3 a4 a5 a6 : Char) (r g b : Nat)
    (h1 : val a1 a2 = .ok r) (h2 : val a3 a4 = .ok g) (h3 : val a5 a6 = .ok b) :
    parse_color [a1, a2, a3, a4, a5, a6] = .ok (.RGB24 r g b) := by
  simp only [parse_color]
  rw [h1, h2, h3]

theorem parse_color_eight (a1 a2 a3 a4 a5 a6 a7 a8 : Char) (r g b a : Nat)
    (h1 : val a1 a2 = .ok r) (h2 : val a3 a4 = .ok g) (h3 : val a5 a6 = .ok b)
    (h4 : val a7 a8 = .ok a) :
    parse_color [a1, a2, a3, a4, a5, a6, a7, a8] = .ok (.RGBA32 r g b a) := by
  simp only [parse_color]
  rw [h1, h2, h3, h4]

theorem read_line_append (body rest : List Char) (h : '\n' ∉ body) :
    read_line (body ++ '\n' :: rest) = (body ++ ['\n'], rest) := by
  induction body with
  | nil =>
    show read_line ('\n' :: rest) = (['\n'], rest)
    unfold read_line
    rw [if_pos rfl]
  | cons c body ih =>
    have hc : ¬(c = '\n') := fun heq => h (by simp [heq])
    show read_line (c :: (body ++ '\n' :: rest)) = ((c :: body) ++ ['\n'], rest)
    unfold read_line
    rw [if_neg hc, ih (fun hmem => h (List.mem_cons_of_mem c hmem))]
    rfl

theorem splitSp_no_space (a : List Char) (h : ∀ c ∈ a, c ≠ ' ') :
    splitSp a = [a] := by
  induction a with
  | nil => rfl
  | cons c a ih =>
    rw [splitSp, if_neg (h c (by simp)), ih (fun x hx => h x (List.mem_cons_of_mem c hx))]

theorem splitSp_append_space (a r : List Char) (h : ∀ c ∈ a, c ≠ ' ') :
    splitSp (a ++ ' ' :: r) = a :: splitSp r := by
  induction a with
  | nil =>
    show splitSp (' ' :: r) = [] :: splitSp r
    rw [splitSp, if_pos rfl]
  | cons c a ih =>
    show splitSp (c :: (a ++ ' ' :: r)) = (c :: a) :: splitSp r
    rw [splitSp, if_neg (h c (by simp)), ih (fun x hx => h x (List.mem_cons_of_mem c hx))]

theorem trimChars_body (c : Char) (rest : List Char) (hc : isWS c = false)
    (hlast : ∀ d, rest.getLast? = some d → isWS d = false) :
    trimChars ((c :: rest) ++ ['\n']) = c :: rest := by
  unfold trimChars
  have h1 : ((c :: rest) ++ ['\n']).dropWhile isWS = (c :: rest) ++ ['\n'] := by
    rw [List.cons_append, List.dropWhile_cons]
    rw [hc]
    simp
  rw [h1]
  have h2 : ((c :: rest) ++ ['\n']).reverse = '\n' :: (c :: rest).reverse := by
    rw [List.reverse_append]
    rfl
  rw [h2, List.dropWhile_cons]
  rw [show isWS '\n' = true from rfl]
  simp only [if_true]
  cases hr : rest.reverse with
  | nil =>
    have : rest = [] := by
      have := congrArg List.reverse hr
      simpa using this
    subst this
    show List.reverse (List.dropWhile isWS [c]) = [c]
    rw [List.dropWhile_cons]
    rw [hc]
    simp
  | cons d tl =>
    have hrest : rest = tl.reverse ++ [d] := by
      have := congrArg List.reverse hr
      simpa using this
    have hd : isWS d = false := by
      apply hlast
      rw [hrest]
      simp
    rw [hrest]
    show (List.dropWhile isWS ((c :: (tl.reverse ++ [d])).reverse)).reverse =
      c :: (tl.reverse ++ [d])
    rw [show (c :: (tl.reverse ++ [d])).reverse = d :: (tl ++ [c]) by simp]
    rw [List.dropWhile_cons, hd]
    simp

theorem getLast?_forall {l : List Char} {P : Char → Prop} (hP : ∀ c ∈ l, P c) :
    ∀ d, l.getLast? = some d → P d := by
  intro d hd
  obtain ⟨h, rfl⟩ := List.mem_getLast?_eq_getLast (Option.mem_def.mpr hd)
  exact hP _ (List.getLast_mem h)

theorem parse_line_eq_pixel (p : TextParser) (line : List Char)
    (hH : starts_with "HELP".toList line = false)
    (hPS : starts_with "PROTOCOLS".toList line = false)
    (hS : starts_with "SIZE".toList line = false)
    (hPX : starts_with "PX ".toList line = true) :
    p.parse_line line = TextParser.parse_pixel p.canvas line := by
  unfold TextParser.parse_line
  rw [hH, hPS, hS, hPX]
  simp

theorem parse_line_eq_canvas (p : TextParser) (line : List Char)
    (hH : starts_with "HELP".toList line = false)
    (hPS : starts_with "PROTOCOLS".toList line = false)
    (hS : starts_with "SIZE".toList line = false)
    (hPX : starts_with "PX ".toList line = false)
    (hC : starts_with "CANVAS ".toList line = true) :
    p.parse_line line = TextParser.parse_canvas line := by
  unfold TextParser.parse_line
  rw [hH, hPS, hS, hPX, hC]
  simp

theorem parse_line_unrecognized (p : TextParser) (line : List Char)
    (hH : starts_with "HELP".toList line = false)
    (hPS : starts_with "PROTOCOLS".toList line = false)
    (hS : starts_with "SIZE".toList line = false)
    (hPX : starts_with "PX ".toList line = false)
    (hC : starts_with "CANVAS ".toList line = false)
    (hP : starts_with "PROTOCOL ".toList line = false) :
    p.parse_line line = .error .invalidInput := by
  unfold TextParser.parse_line
  rw [hH, hPS, hS, hPX, hC, hP]
  simp

theorem parse_pixel_get (canvas x y : Nat) (hx : x < 65536) (hy : y < 65536) :
    TextParser.parse_pixel canvas
      (('P' :: 'X' :: ' ' :: (dec_chars x ++ ' ' :: dec_chars y)) ++ ['\n']) =
      .ok (.getPixel canvas x y) := by
  have hlast : ∀ d : Char,
      ('X' :: ' ' :: (dec_chars x ++ ' ' :: dec_chars y)).getLast? = some d →
      isWS d = false := by
    intro d hd
    rw [show ('X' :: ' ' :: (dec_chars x ++ ' ' :: dec_chars y)) =
        ('X' :: ' ' :: dec_chars x ++ [' ']) ++ dec_chars y by simp, 
      List.getLast?_append_of_ne_nil _ (by
        obtain ⟨ds, _, hne, _, hmap⟩ := dec_chars_shape y
        rw [hmap]
        simpa using hne)] at hd
    exact getLast?_forall (fun c hc => (dec_chars_no_ws y c hc).1) d hd
  have htrim := trimChars_body 'P' ('X' :: ' ' :: (dec_chars x ++ ' ' :: dec_chars y)) rfl hlast
  have hsplit : splitSp ('P' :: 'X' :: ' ' :: (dec_chars x ++ ' ' :: dec_chars y)) =
      ['P', 'X'] :: dec_chars x :: [dec_chars y] := by
    rw [show ('P' :: 'X' :: ' ' :: (dec_chars x ++ ' ' :: dec_chars y)) =
        ['P', 'X'] ++ ' ' :: (dec_chars x ++ ' ' :: dec_chars y) from rfl]
    rw [splitSp_append_space ['P', 'X'] _ (by decide)]
    rw [splitSp_append_space (dec_chars x) _ (fun c hc => (dec_chars_no_ws x c hc).2.1)]
    rw [splitSp_no_space (dec_chars y) (fun c hc => (dec_chars_no_ws y c hc).2.1)]
  unfold TextParser.parse_pixel
  rw [htrim, hsplit]
  show (match parse_u16 (dec_chars x), parse_u16 (dec_chars y) with
    | some horizontal, some vertical => Except.ok (Command.getPixel canvas horizontal vertical)
    | _, _ => Except.error ErrKind.invalidInput) = .ok (.getPixel canvas x y)
  rw [parse_u16_dec_chars x hx, parse_u16_dec_chars y hy]

theorem parse_pixel_set (canvas x y : Nat) (hx : x < 65536) (hy : y < 65536)
    (ctoken : List Char) (col : Color) (hcol : parse_color ctoken = .ok col)
    (hws : ∀ ch ∈ ctoken, isWS ch = false ∧ ch ≠ ' ' ∧ ch ≠ '\n')
    (hne : ctoken ≠ []) :
    TextParser.parse_pixel canvas
      (('P' :: 'X' :: ' ' :: (dec_chars x ++ ' ' :: (dec_chars y ++ ' ' :: ctoken))) ++ ['\n']) =
      .ok (.setPixel canvas x y col) := by
  have hlast : ∀ d : Char,
      ('X' :: ' ' :: (dec_chars x ++ ' ' :: (dec_chars y ++ ' ' :: ctoken))).getLast? = some d →
      isWS d = false := by
    intro d hd
    rw [show ('X' :: ' ' :: (dec_chars x ++ ' ' :: (dec_chars y ++ ' ' :: ctoken))) =
        ('X' :: ' ' :: dec_chars x ++ ' ' :: dec_chars y ++ [' ']) ++ ctoken by simp,
      List.getLast?_append_of_ne_nil _ hne] at hd
    exact getLast?_forall (fun c hc => (hws c hc).1) d hd
  have htrim := trimChars_body 'P'
    ('X' :: ' ' :: (dec_chars x ++ ' ' :: (dec_chars y ++ ' ' :: ctoken))) rfl hlast
  have hsplit : splitSp ('P' :: 'X' :: ' ' :: (dec_chars x ++ ' ' :: (dec_chars y ++ ' ' :: ctoken))) =
      ['P', 'X'] :: dec_chars x :: dec_chars y :: [ctoken] := by
    rw [show ('P' :: 'X' :: ' ' :: (dec_chars x ++ ' ' :: (dec_chars y ++ ' ' :: ctoken))) =
        ['P', 'X'] ++ ' ' :: (dec_chars x ++ ' ' :: (dec_chars y ++ ' ' :: ctoken)) from rfl]
    rw [splitSp_append_space ['P', 'X'] _ (by decide)]
    rw [splitSp_append_space (dec_chars x) _ (fun c hc => (dec_chars_no_ws x c hc).2.1)]
    rw [splitSp_append_space (dec_chars y) _ (fun c hc => (dec_chars_no_ws y c hc).2.1)]
    rw [splitSp_no_space ctoken (fun c hc => (hws c hc).2.1)]
  unfold TextParser.parse_pixel
  rw [htrim, hsplit]
  show (match parse_u16 (dec_chars x), parse_u16 (dec_chars y) with
    | some horizontal, some vertical =>
      (match parse_color ctoken with
        | .ok c => Except.ok (Command.setPixel canvas horizontal vertical c)
        | .error e => Except.error e)
    | _, _ => Except.error ErrKind.invalidInput) = .ok (.setPixel canvas x y col)
  rw [parse_u16_dec_chars x hx, parse_u16_dec_chars y hy]
  show (match parse_color ctoken with
    | .ok c => Except.ok (Command.setPixel canvas x y c)
    | .error e => Except.error e) = .ok (.setPixel canvas x y col)
  rw [hcol]

theorem parse_canvas_dec (n : Nat) (hn : n < 256) :
    TextParser.parse_canvas
      (('C' :: 'A' :: 'N' :: 'V' :: 'A' :: 'S' :: ' ' :: dec_chars n) ++ ['\n']) =
      .ok (.changeCanvas n) := by
  have hlast : ∀ d : Char,
      ('A' :: 'N' :: 'V' :: 'A' :: 'S' :: ' ' :: dec_chars n).getLast? = some d →
      isWS d = false := by
    intro d hd
    rw [show ('A' :: 'N' :: 'V' :: 'A' :: 'S' :: ' ' :: dec_chars n) =
        ['A', 'N', 'V', 'A', 'S', ' '] ++ dec_chars n from rfl,
      List.getLast?_append_of_ne_nil _ (by
        obtain ⟨ds, _, hne, _, hmap⟩ := dec_chars_shape n
        rw [hmap]
        simpa using hne)] at hd
    exact getLast?_forall (fun c hc => (dec_chars_no_ws n c hc).1) d hd
  have htrim := trimChars_body 'C' ('A' :: 'N' :: 'V' :: 'A' :: 'S' :: ' ' :: dec_chars n) rfl hlast
  have hsplit : splitSp ('C' :: 'A' :: 'N' :: 'V' :: 'A' :: 'S' :: ' ' :: dec_chars n) =
      ['C', 'A', 'N', 'V', 'A', 'S'] :: [dec_chars n] := by
    rw [show ('C' :: 'A' :: 'N' :: 'V' :: 'A' :: 'S' :: ' ' :: dec_chars n) =
        ['C', 'A', 'N', 'V', 'A', 'S'] ++ ' ' :: dec_chars n from rfl]
    rw [splitSp_append_space ['C', 'A', 'N', 'V', 'A', 'S'] _ (by decide)]
    rw [splitSp_no_space (dec_chars n) (fun c hc => (dec_chars_no_ws n c hc).2.1)]
  unfold TextParser.parse_canvas
  rw [htrim, hsplit]
  show (match parse_u8 (dec_chars n) with
    | some c => Except.ok (Command.changeCanvas c)
    | none => Except.error ErrKind.invalidInput) = .ok (.changeCanvas n)
  rw [parse_u8_dec_chars n hn]

theorem text_parse_help (p : TextParser) (tail rest : List Char) (h : '\n' ∉ tail) :
    p.parse (('H' :: 'E' :: 'L' :: 'P' :: tail) ++ '\n' :: rest) = .ok (.help, rest) := by
  have hnl : '\n' ∉ ('H' :: 'E' :: 'L' :: 'P' :: tail) := by
    intro hm
    simp only [List.mem_cons] at hm
    rcases hm with h1 | h1 | h1 | h1 | h1
    · exact absurd h1 (by decide)
    · exact absurd h1 (by decide)
    · exact absurd h1 (by decide)
    · exact absurd h1 (by decide)
    · exact h h1
  unfold TextParser.parse
  rw [read_line_append _ _ hnl]
  have hline : p.parse_line (('H' :: 'E' :: 'L' :: 'P' :: tail) ++ ['\n']) = .ok .help := by
    unfold TextParser.parse_line
    rw [show starts_with "HELP".toList (('H' :: 'E' :: 'L' :: 'P' :: tail) ++ ['\n']) = true
      from rfl]
    simp
  show (match p.parse_line (('H' :: 'E' :: 'L' :: 'P' :: tail) ++ ['\n']) with
    | .ok c => Except.ok (c, rest)
    | .error e => Except.error e) = .ok (.help, rest)
  rw [hline]

theorem nl_not_mem_dec (n : Nat) : '\n' ∉ dec_chars n :=
  fun hm => (dec_chars_no_ws n _ hm).2.2 rfl

theorem text_parse_protocols (p : TextParser) (tail rest : List Char) (h : '\n' ∉ tail) :
    p.parse (('P' :: 'R' :: 'O' :: 'T' :: 'O' :: 'C' :: 'O' :: 'L' :: 'S' :: tail) ++
      '\n' :: rest) = .ok (.protocols, rest) := by
  have hnl : '\n' ∉ ('P' :: 'R' :: 'O' :: 'T' :: 'O' :: 'C' :: 'O' :: 'L' :: 'S' :: tail) := by
    intro hm
    simp only [List.mem_cons] at hm
    rcases hm with h1 | h1 | h1 | h1 | h1 | h1 | h1 | h1 | h1 | h1
    iterate 9 exact absurd h1 (by decide)
    exact h h1
  unfold TextParser.parse
  rw [read_line_append _ _ hnl]
  have hline : p.parse_line
      (('P' :: 'R' :: 'O' :: 'T' :: 'O' :: 'C' :: 'O' :: 'L' :: 'S' :: tail) ++ ['\n']) =
      .ok .protocols := by
    unfold TextParser.parse_line
    rw [show starts_with "HELP".toList
        (('P' :: 'R' :: 'O' :: 'T' :: 'O' :: 'C' :: 'O' :: 'L' :: 'S' :: tail) ++ ['\n']) = false
      from rfl]
    rw [show starts_with "PROTOCOLS".toList
        (('P' :: 'R' :: 'O' :: 'T' :: 'O' :: 'C' :: 'O' :: 'L' :: 'S' :: tail) ++ ['\n']) = true
      from rfl]
    simp
  show (match p.parse_line
      (('P' :: 'R' :: 'O' :: 'T' :: 'O' :: 'C' :: 'O' :: 'L' :: 'S' :: tail) ++ ['\n']) with
    | .ok c => Except.ok (c, rest)
    | .error e => Except.error e) = .ok (.protocols, rest)
  rw [hline]

theorem text_parse_size (p : TextParser) (tail rest : List Char) (h : '\n' ∉ tail) :
    p.parse (('S' :: 'I' :: 'Z' :: 'E' :: tail) ++ '\n' :: rest) =
      .ok (.size p.canvas, rest) := by
  have hnl : '\n' ∉ ('S' :: 'I' :: 'Z' :: 'E' :: tail) := by
    intro hm
    simp only [List.mem_cons] at hm
    rcases hm with h1 | h1 | h1 | h1 | h1
    iterate 4 exact absurd h1 (by decide)
    exact h h1
  unfold TextParser.parse
  rw [read_line_append _ _ hnl]
  have hline : p.parse_line (('S' :: 'I' :: 'Z' :: 'E' :: tail) ++ ['\n']) =
      .ok (.size p.canvas) := by
    unfold TextParser.parse_line
    rw [show starts_with "HELP".toList (('S' :: 'I' :: 'Z' :: 'E' :: tail) ++ ['\n']) = false
      from rfl]
    rw [show starts_with "PROTOCOLS".toList (('S' :: 'I' :: 'Z' :: 'E' :: tail) ++ ['\n']) = false
      from rfl]
    rw [show starts_with "SIZE".toList (('S' :: 'I' :: 'Z' :: 'E' :: tail) ++ ['\n']) = true
      from rfl]
    simp
  show (match p.parse_line (('S' :: 'I' :: 'Z' :: 'E' :: tail) ++ ['\n']) with
    | .ok c => Except.ok (c, rest)
    | .error e => Except.error e) = .ok (.size p.canvas, rest)
  rw [hline]

theorem text_parse_px_get (p : TextParser) (x y : Nat) (hx : x < 65536) (hy : y < 65536)
    (rest : List Char) :
    p.parse (('P' :: 'X' :: ' ' :: (dec_chars x ++ ' ' :: dec_chars y)) ++ '\n' :: rest) =
      .ok (.getPixel p.canvas x y, rest) := by
  have hnl : '\n' ∉ ('P' :: 'X' :: ' ' :: (dec_chars x ++ ' ' :: dec_chars y)) := by
    intro hm
    simp only [List.mem_cons, List.mem_append] at hm
    rcases hm with h1 | h1 | h1 | h1 | h1 | h1
    · exact absurd h1 (by decide)
    · exact absurd h1 (by decide)
    · exact absurd h1 (by decide)
    · exact nl_not_mem_dec x h1
    · exact absurd h1 (by decide)
    · exact nl_not_mem_dec y h1
  unfold TextParser.parse
  rw [read_line_append _ _ hnl]
  have hline : p.parse_line
      (('P' :: 'X' :: ' ' :: (dec_chars x ++ ' ' :: dec_chars y)) ++ ['\n']) =
      .ok (.getPixel p.canvas x y) := by
    rw [parse_line_eq_pixel p
      (('P' :: 'X' :: ' ' :: (dec_chars x ++ ' ' :: dec_chars y)) ++ ['\n'])
      rfl rfl rfl rfl]
    exact parse_pixel_get p.canvas x y hx hy
  show (match p.parse_line
      (('P' :: 'X' :: ' ' :: (dec_chars x ++ ' ' :: dec_chars y)) ++ ['\n']) with
    | .ok c => Except.ok (c, rest)
    | .error e => Except.error e) = .ok (.getPixel p.canvas x y, rest)
  rw [hline]

theorem text_parse_px_set (p : TextParser) (x y : Nat) (hx : x < 65536) (hy : y < 65536)
    (ctoken : List Char) (col : Color) (hcol : parse_color ctoken = .ok col)
    (hws : ∀ ch ∈ ctoken, isWS ch = false ∧ ch ≠ ' ' ∧ ch ≠ '\n')
    (hne : ctoken ≠ []) (rest : List Char) :
    p.parse (('P' :: 'X' :: ' ' :: (dec_chars x ++ ' ' :: (dec_chars y ++ ' ' :: ctoken))) ++
      '\n' :: rest) = .ok (.setPixel p.canvas x y col, rest) := by
  have hnl : '\n' ∉ ('P' :: 'X' :: ' ' :: (dec_chars x ++ ' ' :: (dec_chars y ++ ' ' :: ctoken))) := by
    intro hm
    simp only [List.mem_cons, List.mem_append] at hm
    rcases hm with h1 | h1 | h1 | h1 | h1 | h1 | h1 | h1
    · exact absurd h1 (by decide)
    · exact absurd h1 (by decide)
    · exact absurd h1 (by decide)
    · exact nl_not_mem_dec x h1
    · exact absurd h1 (by decide)
    · exact nl_not_mem_dec y h1
    · exact absurd h1 (by decide)
    · exact (hws _ h1).2.2 rfl
  unfold TextParser.parse
  rw [read_line_append _ _ hnl]
  have hline : p.parse_line
      (('P' :: 'X' :: ' ' :: (dec_chars x ++ ' ' :: (dec_chars y ++ ' ' :: ctoken))) ++ ['\n']) =
      .ok (.setPixel p.canvas x y col) := by
    rw [parse_line_eq_pixel p
      (('P' :: 'X' :: ' ' :: (dec_chars x ++ ' ' :: (dec_chars y ++ ' ' :: ctoken))) ++ ['\n'])
      rfl rfl rfl rfl]
    exact parse_pixel_set p.canvas x y hx hy ctoken col hcol hws hne
  show (match p.parse_line
      (('P' :: 'X' :: ' ' :: (dec_chars x ++ ' ' :: (dec_chars y ++ ' ' :: ctoken))) ++ ['\n']) with
    | .ok c => Except.ok (c, rest)
    | .error e => Except.error e) = .ok (.setPixel p.canvas x y col, rest)
  rw [hline]

theorem text_parse_canvas_cmd (p : TextParser) (n : Nat) (hn : n < 256) (rest : List Char) :
    p.parse (('C' :: 'A' :: 'N' :: 'V' :: 'A' :: 'S' :: ' ' :: dec_chars n) ++ '\n' :: rest) =
      .ok (.changeCanvas n, rest) := by
  have hnl : '\n' ∉ ('C' :: 'A' :: 'N' :: 'V' :: 'A' :: 'S' :: ' ' :: dec_chars n) := by
    intro hm
    simp only [List.mem_cons] at hm
    rcases hm with h1 | h1 | h1 | h1 | h1 | h1 | h1 | h1
    iterate 7 exact absurd h1 (by decide)
    exact nl_not_mem_dec n h1
  unfold TextParser.parse
  rw [read_line_append _ _ hnl]
  have hline : p.parse_line
      (('C' :: 'A' :: 'N' :: 'V' :: 'A' :: 'S' :: ' ' :: dec_chars n) ++ ['\n']) =
      .ok (.changeCanvas n) := by
    rw [parse_line_eq_canvas p
      (('C' :: 'A' :: 'N' :: 'V' :: 'A' :: 'S' :: ' ' :: dec_chars n) ++ ['\n'])
      rfl rfl rfl rfl rfl]
    exact parse_canvas_dec n hn
  show (match p.parse_line
      (('C' :: 'A' :: 'N' :: 'V' :: 'A' :: 'S' :: ' ' :: dec_chars n) ++ ['\n']) with
    | .ok c => Except.ok (c, rest)
    | .error e => Except.error e) = .ok (.changeCanvas n, rest)
  rw [hline]

theorem text_parse_protocol_switch (p : TextParser) (rest : List Char) :
    p.parse ("PROTOCOL binary".toList ++ '\n' :: rest) =
      .ok (.changeProtocol .binary, rest) ∧
    p.parse ("PROTOCOL text".toList ++ '\n' :: rest) =
      .ok (.changeProtocol .text, rest) := by
  constructor <;> rfl

theorem text_parse_unrecognized_line (p : TextParser) (body rest : List Char)
    (hnl : '\n' ∉ body)
    (hH : starts_with "HELP".toList (body ++ ['\n']) = false)
    (hPS : starts_with "PROTOCOLS".toList (body ++ ['\n']) = false)
    (hS : starts_with "SIZE".toList (body ++ ['\n']) = false)
    (hPX : starts_with "PX ".toList (body ++ ['\n']) = false)
    (hC : starts_with "CANVAS ".toList (body ++ ['\n']) = false)
    (hP : starts_with "PROTOCOL ".toList (body ++ ['\n']) = false) :
    p.parse (body ++ '\n' :: rest) = .error .invalidInput := by
  unfold TextParser.parse
  rw [read_line_append _ _ hnl]
  have hline := parse_line_unrecognized p (body ++ ['\n']) hH hPS hS hPX hC hP
  show (match p.parse_line (body ++ ['\n']) with
    | .ok c => Except.ok (c, rest)
    | .error e => Except.error e) = .error .invalidInput
  rw [hline]

theorem hex6_upper_no_ws (r g b : Nat) (hr : r < 256) (hg : g < 256) (hb : b < 256) :
    ∀ ch ∈ hex2_upper r ++ hex2_upper g ++ hex2_upper b,
      isWS ch = false ∧ ch ≠ ' ' ∧ ch ≠ '\n' := by
  intro ch hc
  rcases List.mem_append.mp hc with hc2 | hc2
  · rcases List.mem_append.mp hc2 with hc3 | hc3
    · exact hex2_upper_no_ws r hr ch hc3
    · exact hex2_upper_no_ws g hg ch hc3
  · exact hex2_upper_no_ws b hb ch hc2

theorem hex8_upper_no_ws (r g b a : Nat) (hr : r < 256) (hg : g < 256) (hb : b < 256)
    (ha : a < 256) :
    ∀ ch ∈ hex2_upper r ++ hex2_upper g ++ hex2_upper b ++ hex2_upper a,
      isWS ch = false ∧ ch ≠ ' ' ∧ ch ≠ '\n' := by
  intro ch hc
  rcases List.mem_append.mp hc with hc2 | hc2
  · rcases List.mem_append.mp hc2 with hc3 | hc3
    · rcases List.mem_append.mp hc3 with hc4 | hc4
      · exact hex2_upper_no_ws r hr ch hc4
      · exact hex2_upper_no_ws g hg ch hc4
    · exact hex2_upper_no_ws b hb ch hc3
  · exact hex2_upper_no_ws a ha ch hc2

theorem parse_color_rgb_upper (r g b : Nat) (hr : r < 256) (hg : g < 256) (hb : b < 256) :
    parse_color (hex2_upper r ++ hex2_upper g ++ hex2_upper b) = .ok (.RGB24 r g b) :=
  parse_color_six _ _ _ _ _ _ r g b (val_hex_upper r hr) (val_hex_upper g hg)
    (val_hex_upper b hb)

theorem parse_color_rgba_upper (r g b a : Nat) (hr : r < 256) (hg : g < 256) (hb : b < 256)
    (ha : a < 256) :
    parse_color (hex2_upper r ++ hex2_upper g ++ hex2_upper b ++ hex2_upper a) =
      .ok (.RGBA32 r g b a) :=
  parse_color_eight _ _ _ _ _ _ _ _ r g b a (val_hex_upper r hr) (val_hex_upper g hg)
    (val_hex_upper b hb) (val_hex_upper a ha)

theorem hex6_lower_no_ws (r g b : Nat) (hr : r < 256) (hg : g < 256) (hb : b < 256) :
    ∀ ch ∈ hex2_lower r ++ hex2_lower g ++ hex2_lower b,
      isWS ch = false ∧ ch ≠ ' ' ∧ ch ≠ '\n' := by
  intro ch hc
  rcases List.mem_append.mp hc with hc2 | hc2
  · rcases List.mem_append.mp hc2 with hc3 | hc3
    · exact hex2_lower_no_ws r hr ch hc3
    · exact hex2_lower_no_ws g hg ch hc3
  · exact hex2_lower_no_ws b hb ch hc2

theorem hex8_lower_no_ws (r g b a : Nat) (hr : r < 256) (hg : g < 256) (hb : b < 256)
    (ha : a < 256) :
    ∀ ch ∈ hex2_lower r ++ hex2_lower g ++ hex2_lower b ++ hex2_lower a,
      isWS ch = false ∧ ch ≠ ' ' ∧ ch ≠ '\n' := by
  intro ch hc
  rcases List.mem_append.mp hc with hc2 | hc2
  · rcases List.mem_append.mp hc2 with hc3 | hc3
    · rcases List.mem_append.mp hc3 with hc4 | hc4
      · exact hex2_lower_no_ws r hr ch hc4
      · exact hex2_lower_no_ws g hg ch hc4
    · exact hex2_lower_no_ws b hb ch hc3
  · exact hex2_lower_no_ws a ha ch hc2

theorem parse_color_rgb_lower (r g b : Nat) (hr : r < 256) (hg : g < 256) (hb : b < 256) :
    parse_color (hex2_lower r ++ hex2_lower g ++ hex2_lower b) = .ok (.RGB24 r g b) :=
  parse_color_six _ _ _ _ _ _ r g b (val_hex_lower r hr) (val_hex_lower g hg)
    (val_hex_lower b hb)

theorem parse_color_rgba_lower (r g b a : Nat) (hr : r < 256) (hg : g < 256) (hb : b < 256)
    (ha : a < 256) :
    parse_color (hex2_lower r ++ hex2_lower g ++ hex2_lower b ++ hex2_lower a) =
      .ok (.RGBA32 r g b a) :=
  parse_color_eight _ _ _ _ _ _ _ _ r g b a (val_hex_lower r hr) (val_hex_lower g hg)
    (val_hex_lower b hb) (val_hex_lower a ha)

/-- Counterexample to claim C6 as stated: a recognised keyword followed by
trailing garbage does not yield `InvalidInput`; the parser prefix-matches,
so the line `HELP garbage` parses as `Help`. -/
theorem c6_counterexample :
    TextParser.parse ⟨0⟩ ("HELP garbage".toList ++ '\n' :: []) = .ok (.help, []) ∧
    (Except.ok ((Command.help, ([] : List Char))) ≠
      (.error .invalidInput : Except ErrKind (Command × List Char))) :=
  ⟨rfl, by decide⟩

/-- Claim C6 (amended): on canonical lines the prescribed mapping holds —
`HELP` is `Help`, `SIZE` is `Size(current canvas)`, `PX x y` is
`GetPixel`, `PX x y` followed by 2/6/8 hex digits (either case) is
`SetPixel` with `W8`/`RGB24`/`RGBA32`, `CANVAS n` is `ChangeCanvas(n)`,
`PROTOCOL text|binary` is `ChangeProtocol`, with `x`, `y` parsed as
unsigned 16-bit decimal and `n` as unsigned 8-bit decimal — and
`PROTOCOLS` is also a recognised line.  But keywords are matched as line
prefixes, not exact forms: any trailing bytes after `HELP`, `PROTOCOLS`
and `SIZE` are ignored, and extra space-separated tokens after the
arguments of `PX` and `CANVAS` are ignored too (shown at the concrete
lines `PX 1 2 FF junk` and `CANVAS 3 junk`).  A recognised prefix with
malformed arguments still errors (shown at `PX a b`, `PX 1 2 garbage`
and `CANVAS x`), and a line starting with none of the six recognised
prefixes yields `InvalidInput`. -/
theorem c6_text_line_grammar_amended :
    (∀ (p : TextParser) (tail rest : List Char), '\n' ∉ tail →
      p.parse (('H' :: 'E' :: 'L' :: 'P' :: tail) ++ '\n' :: rest) = .ok (.help, rest)) ∧
    (∀ (p : TextParser) (tail rest : List Char), '\n' ∉ tail →
      p.parse (('P' :: 'R' :: 'O' :: 'T' :: 'O' :: 'C' :: 'O' :: 'L' :: 'S' :: tail) ++
        '\n' :: rest) = .ok (.protocols, rest)) ∧
    (∀ (p : TextParser) (tail rest : List Char), '\n' ∉ tail →
      p.parse (('S' :: 'I' :: 'Z' :: 'E' :: tail) ++ '\n' :: rest) =
        .ok (.size p.canvas, rest)) ∧
    (∀ (p : TextParser) (x y : Nat) (rest : List Char), x < 65536 → y < 65536 →
      p.parse (('P' :: 'X' :: ' ' :: (dec_chars x ++ ' ' :: dec_chars y)) ++ '\n' :: rest) =
        .ok (.getPixel p.canvas x y, rest)) ∧
    (∀ (p : TextParser) (x y w : Nat) (rest : List Char),
      x < 65536 → y < 65536 → w < 256 →
      p.parse (('P' :: 'X' :: ' ' :: (dec_chars x ++ ' ' ::
          (dec_chars y ++ ' ' :: hex2_upper w))) ++ '\n' :: rest) =
        .ok (.setPixel p.canvas x y (.W8 w), rest) ∧
      p.parse (('P' :: 'X' :: ' ' :: (dec_chars x ++ ' ' ::
          (dec_chars y ++ ' ' :: hex2_lower w))) ++ '\n' :: rest) =
        .ok (.setPixel p.canvas x y (.W8 w), rest)) ∧
    (∀ (p : TextParser) (x y r g b : Nat) (rest : List Char),
      x < 65536 → y < 65536 → r < 256 → g < 256 → b < 256 →
      p.parse (('P' :: 'X' :: ' ' :: (dec_chars x ++ ' ' ::
          (dec_chars y ++ ' ' :: (hex2_upper r ++ hex2_upper g ++ hex2_upper b)))) ++
        '\n' :: rest) = .ok (.setPixel p.canvas x y (.RGB24 r g b), rest) ∧
      p.parse (('P' :: 'X' :: ' ' :: (dec_chars x ++ ' ' ::
          (dec_chars y ++ ' ' :: (hex2_lower r ++ hex2_lower g ++ hex2_lower b)))) ++
        '\n' :: rest) = .ok (.setPixel p.canvas x y (.RGB24 r g b), rest)) ∧
    (∀ (p : TextParser) (x y r g b a : Nat) (rest : List Char),
      x < 65536 → y < 65536 → r < 256 → g < 256 → b < 256 → a < 256 →
      p.parse (('P' :: 'X' :: ' ' :: (dec_chars x ++ ' ' ::
          (dec_chars y ++ ' ' ::
            (hex2_upper r ++ hex2_upper g ++ hex2_upper b ++ hex2_upper a)))) ++
        '\n' :: rest) = .ok (.setPixel p.canvas x y (.RGBA32 r g b a), rest) ∧
      p.parse (('P' :: 'X' :: ' ' :: (dec_chars x ++ ' ' ::
          (dec_chars y ++ ' ' ::
            (hex2_lower r ++ hex2_lower g ++ hex2_lower b ++ hex2_lower a)))) ++
        '\n' :: rest) = .ok (.setPixel p.canvas x y (.RGBA32 r g b a), rest)) ∧
    (∀ (p : TextParser) (n : Nat) (rest : List Char), n < 256 →
      p.parse (('C' :: 'A' :: 'N' :: 'V' :: 'A' :: 'S' :: ' ' :: dec_chars n) ++
        '\n' :: rest) = .ok (.changeCanvas n, rest)) ∧
    (∀ (p : TextParser) (rest : List Char),
      p.parse ("PROTOCOL binary".toList ++ '\n' :: rest) =
        .ok (.changeProtocol .binary, rest) ∧
      p.parse ("PROTOCOL text".toList ++ '\n' :: rest) =
        .ok (.changeProtocol .text, rest)) ∧
    (∀ (p : TextParser) (body rest : List Char), '\n' ∉ body →
      starts_with "HELP".toList (body ++ ['\n']) = false →
      starts_with "PROTOCOLS".toList (body ++ ['\n']) = false →
      starts_with "SIZE".toList (body ++ ['\n']) = false →
      starts_with "PX ".toList (body ++ ['\n']) = false →
      starts_with "CANVAS ".toList (body ++ ['\n']) = false →
      starts_with "PROTOCOL ".toList (body ++ ['\n']) = false →
      p.parse (body ++ '\n' :: rest) = .error .invalidInput) ∧
    (∀ p : TextParser, p.parse ("PX 1 2 FF junk".toList ++ '\n' :: []) =
      .ok (.setPixel p.canvas 1 2 (.W8 0xFF), [])) ∧
    (∀ p : TextParser, p.parse ("CANVAS 3 junk".toList ++ '\n' :: []) =
      .ok (.changeCanvas 3, [])) ∧
    (∀ p : TextParser, p.parse ("PX a b".toList ++ '\n' :: []) =
      .error .invalidInput) ∧
    (∀ p : TextParser, p.parse ("PX 1 2 garbage".toList ++ '\n' :: []) =
      .error .invalidInput) ∧
    (∀ p : TextParser, p.parse ("CANVAS x".toList ++ '\n' :: []) =
      .error .invalidInput) := by
  refine ⟨text_parse_help, text_parse_protocols, text_parse_size,
    fun p x y rest hx hy => text_parse_px_get p x y hx hy rest,
    fun p x y w rest hx hy hw => ⟨?_, ?_⟩,
    fun p x y r g b rest hx hy hr hg hb => ⟨?_, ?_⟩,
    fun p x y r g b a rest hx hy hr hg hb ha => ⟨?_, ?_⟩,
    fun p n rest hn => text_parse_canvas_cmd p n hn rest,
    fun p rest => text_parse_protocol_switch p rest,
    fun p body rest hnl h1 h2 h3 h4 h5 h6 =>
      text_parse_unrecognized_line p body rest hnl h1 h2 h3 h4 h5 h6,
    fun p => rfl, fun p => rfl, fun p => rfl, fun p => rfl, fun p => rfl⟩
  · exact text_parse_px_set p x y hx hy (hex2_upper w) (.W8 w)
      (parse_color_two _ _ _ (val_hex_upper w hw)) (hex2_upper_no_ws w hw)
      (by simp [hex2_upper]) rest
  · exact text_parse_px_set p x y hx hy (hex2_lower w) (.W8 w)
      (parse_color_two _ _ _ (val_hex_lower w hw)) (hex2_lower_no_ws w hw)
      (by simp [hex2_lower]) rest
  · exact text_parse_px_set p x y hx hy (hex2_upper r ++ hex2_upper g ++ hex2_upper b)
      (.RGB24 r g b) (parse_color_rgb_upper r g b hr hg hb) (hex6_upper_no_ws r g b hr hg hb)
      (by simp [hex2_upper]) rest
  · exact text_parse_px_set p x y hx hy (hex2_lower r ++ hex2_lower g ++ hex2_lower b)
      (.RGB24 r g b) (parse_color_rgb_lower r g b hr hg hb) (hex6_lower_no_ws r g b hr hg hb)
      (by simp [hex2_lower]) rest
  · exact text_parse_px_set p x y hx hy
      (hex2_upper r ++ hex2_upper g ++ hex2_upper b ++ hex2_upper a)
      (.RGBA32 r g b a) (parse_color_rgba_upper r g b a hr hg hb ha)
      (hex8_upper_no_ws r g b a hr hg hb ha) (by simp [hex2_upper]) rest
  · exact text_parse_px_set p x y hx hy
      (hex2_lower r ++ hex2_lower g ++ hex2_lower b ++ hex2_lower a)
      (.RGBA32 r g b a) (parse_color_rgba_lower r g b a hr hg hb ha)
      (hex8_lower_no_ws r g b a hr hg hb ha) (by simp [hex2_lower]) rest

/-- Witness for `c6_text_line_grammar_amended`: the `RGB24` clause at the
concrete line `PX 5 7 AABBCC`. -/
theorem c6_text_line_grammar_amended_witness :
    (5 < 65536 ∧ 7 < 65536 ∧ 0xAA < 256 ∧ 0xBB < 256 ∧ 0xCC < 256) ∧
    TextParser.parse ⟨0⟩ (('P' :: 'X' :: ' ' :: (dec_chars 5 ++ ' ' ::
        (dec_chars 7 ++ ' ' :: (hex2_upper 0xAA ++ hex2_upper 0xBB ++ hex2_upper 0xCC)))) ++
      '\n' :: []) = .ok (.setPixel (TextParser.mk 0).canvas 5 7 (.RGB24 0xAA 0xBB 0xCC), []) :=
  ⟨⟨by decide, by decide, by decide, by decide, by decide⟩,
    (c6_text_line_grammar_amended.2.2.2.2.2.1 ⟨0⟩ 5 7 0xAA 0xBB 0xCC []
      (by decide) (by decide) (by decide) (by decide) (by decide)).1⟩

theorem nl_not_mem_size_tail (w h : Nat) :
    '\n' ∉ (' ' :: (dec_chars w ++ ' ' :: dec_chars h)) := by
  intro hm
  simp only [List.mem_cons, List.mem_append] at hm
  rcases hm with h1 | h1 | h1 | h1
  · exact absurd h1 (by decide)
  · exact nl_not_mem_dec w h1
  · exact absurd h1 (by decide)
  · exact nl_not_mem_dec h h1

theorem unparse_size_shape (w h : Nat) :
    TextParser.unparse (.size w h) =
      ('S' :: 'I' :: 'Z' :: 'E' :: (' ' :: (dec_chars w ++ ' ' :: dec_chars h))) ++
        '\n' :: [] := by
  show "SIZE ".toList ++ dec_chars w ++ [' '] ++ dec_chars h ++ ['\n'] = _
  simp

theorem unparse_get_pixel_shape (x y r g b : Nat) :
    TextParser.unparse (.getPixel x y (r, g, b)) =
      ('P' :: 'X' :: ' ' :: (dec_chars x ++ ' ' ::
        (dec_chars y ++ ' ' :: (hex2_upper r ++ hex2_upper g ++ hex2_upper b)))) ++
        '\n' :: [] := by
  show "PX ".toList ++ dec_chars x ++ [' '] ++ dec_chars y ++ [' '] ++
      hex2_upper r ++ hex2_upper g ++ hex2_upper b ++ ['\n'] = _
  simp

/-- Counterexample to claim C8 as stated: the text codec cannot round-trip
`Size` responses — `unparse` renders the dimensions, but `parse` matches
the line by its `SIZE` prefix only and returns `Size(current canvas)`, so
two distinct responses parse identically and no reading of
`parse(unparse(R)) = R` can hold for `Size`. -/
theorem c8_counterexample :
    TextParser.parse ⟨0⟩ (TextParser.unparse (.size 1 2)) =
      TextParser.parse ⟨0⟩ (TextParser.unparse (.size 3 4)) ∧
    Response.size 1 2 ≠ Response.size 3 4 := by
  constructor
  · have h1 : TextParser.parse ⟨0⟩ (TextParser.unparse (.size 1 2)) =
        .ok (.size (TextParser.mk 0).canvas, []) := by
      rw [unparse_size_shape]
      exact text_parse_size ⟨0⟩ _ [] (nl_not_mem_size_tail 1 2)
    have h2 : TextParser.parse ⟨0⟩ (TextParser.unparse (.size 3 4)) =
        .ok (.size (TextParser.mk 0).canvas, []) := by
      rw [unparse_size_shape]
      exact text_parse_size ⟨0⟩ _ [] (nl_not_mem_size_tail 3 4)
    rw [h1, h2]
  · decide

/-- Claim C8 (amended): feeding `unparse` output back into `parse`
round-trips only the data the text grammar carries: a `GetPixel(x,y,[r,g,b])`
response parses back as the pixel command `SetPixel(current canvas, x, y,
RGB24(r,g,b))`, preserving `x`, `y` and the color bytes; a `Size(w,h)`
response parses back as `Size(current canvas)` with `w` and `h`
discarded. -/
theorem c8_text_response_roundtrip_amended :
    (∀ (p : TextParser) (x y r g b : Nat),
      x < 65536 → y < 65536 → r < 256 → g < 256 → b < 256 →
      p.parse (TextParser.unparse (.getPixel x y (r, g, b))) =
        .ok (.setPixel p.canvas x y (.RGB24 r g b), [])) ∧
    (∀ (p : TextParser) (w h : Nat),
      p.parse (TextParser.unparse (.size w h)) = .ok (.size p.canvas, [])) := by
  constructor
  · intro p x y r g b hx hy hr hg hb
    rw [unparse_get_pixel_shape]
    exact text_parse_px_set p x y hx hy (hex2_upper r ++ hex2_upper g ++ hex2_upper b)
      (.RGB24 r g b) (parse_color_rgb_upper r g b hr hg hb)
      (hex6_upper_no_ws r g b hr hg hb) (by simp [hex2_upper]) []
  · intro p w h
    rw [unparse_size_shape]
    exact text_parse_size p (' ' :: (dec_chars w ++ ' ' :: dec_chars h)) []
      (nl_not_mem_size_tail w h)

/-- Witness for `c8_text_response_roundtrip_amended` at the concrete
response `PX 5 7 AABBCC`. -/
theorem c8_text_response_roundtrip_amended_witness :
    (5 < 65536 ∧ 7 < 65536 ∧ 0xAA < 256 ∧ 0xBB < 256 ∧ 0xCC < 256) ∧
    TextParser.parse ⟨0⟩ (TextParser.unparse (.getPixel 5 7 (0xAA, 0xBB, 0xCC))) =
      .ok (.setPixel (TextParser.mk 0).canvas 5 7 (.RGB24 0xAA 0xBB 0xCC), []) :=
  ⟨⟨by decide, by decide, by decide, by decide, by decide⟩,
    c8_text_response_roundtrip_amended.1 ⟨0⟩ 5 7 0xAA 0xBB 0xCC
      (by decide) (by decide) (by decide) (by decide) (by decide)⟩

/-- Embeds `ParserTypes` from `src/flutclient.rs` lines 23–72: the tagged
union over the enabled codec instances (`text`, `binary`). -/
inductive ParserTypes where
  | textParser (p : TextParser)
  | binaryParser
  deriving DecidableEq, Repr

/-- Embeds the mutable state of `FlutClient` (`src/flutclient.rs` lines
74–88): the shared canvases, the active codec, the session-local pixel
counter, and — to make the effect of `increment_counter` observable — the
process-wide `COUNTER` as `global`. -/
structure FlutClientState where
  grids : List (Flut Nat)
  parser : ParserTypes
  counter : Nat
  global : Nat
  deriving Repr

/-- Embeds `FlutClient::set_pixel_command` (lines 127–145): canonicalise,
store via `set_pixel_rgba`, and increment the session-local counter —
whether or not the write was in bounds. -/
def set_pixel_command (s : FlutClientState) (canvas x y : Nat) (color : Color) :
    FlutClientState :=
  { s with grids := set_pixel_rgba s.grids canvas x y (set_pixel_color_u32 color),
           counter := s.counter + 1 }

/-- Embeds `FlutClient::get_pixel_command` (lines 111–125): `None` becomes
an `InvalidInput` error, otherwise the pixel response is written. -/
def get_pixel_command (s : FlutClientState) (canvas x y : Nat) :
    Except ErrKind Unit :=
  match get_pixel s.grids canvas x y with
  | none => .error .invalidInput
  | some _ => .ok ()

/-- Embeds `FlutClient::size_command` (lines 102–109): the Rust code
indexes `self.grids[canvas]`, which panics on an out-of-range canvas. -/
def size_command (s : FlutClientState) (canvas : Nat) : Except ErrKind Unit :=
  match s.grids[canvas]? with
  | some _ => .ok ()
  | none => .error .panic

/-- Embeds `FlutClient::change_canvas_command` (lines 147–149),
dispatching to the active codec's `change_canvas`. -/
def change_canvas_command (s : FlutClientState) (canvas : Nat) :
    Except ErrKind FlutClientState :=
  match s.parser with
  | .textParser p =>
    match p.change_canvas canvas with
    | .ok p2 => .ok { s with parser := .textParser p2 }
    | .error e => .error e
  | .binaryParser =>
    match BinaryParser.change_canvas canvas with
    | .ok _ => .ok s
    | .error e => .error e

/-- Embeds `FlutClient::change_protocol` (lines 151–168): replace the codec
with the new protocol's default (`TextParser::default()` has canvas 0). -/
def change_protocol (s : FlutClientState) (protocol : Protocol) : FlutClientState :=
  match protocol with
  | .text => { s with parser := .textParser ⟨0⟩ }
  | .binary => { s with parser := .binaryParser }

/-- Outcome of one dispatched command inside the inner loop of
`process_socket`: continue the `for` loop, `break 'outer`, or return from
the function with a session result. -/
inductive StepOut where
  | cont (s : FlutClientState)
  | brk (s : FlutClientState)
  | term (r : Except ErrKind Unit) (s : FlutClientState)
  deriving Repr

/-- Embeds the dispatch `match` of `FlutClient::process_socket` (lines
224–241) on one successfully parsed command.  The source `match` has no
arm for `Command::Protocols`; that case is modelled as a panic. -/
def dispatch (s : FlutClientState) : Command → StepOut
  | .help => .cont s
  | .protocols => .term (.error .panic) s
  | .size canvas =>
    match size_command s canvas with
    | .ok _ => .cont s
    | .error e => .term (.error e) s
  | .getPixel canvas x y =>
    match get_pixel_command s canvas x y with
    | .ok _ => .cont s
    | .error e => .term (.error e) s
  | .setPixel canvas x y color => .cont (set_pixel_command s canvas x y color)
  | .changeCanvas canvas =>
    match change_canvas_command s canvas with
    | .ok s2 => .brk s2
    | .error e => .term (.error e) s
  | .changeProtocol protocol => .brk (change_protocol s protocol)

/-- Embeds `BATCH_N = 1000`, the `for _ in 0..1000` bound in
`process_socket`. -/
def BATCH_N : Nat := 1000

/-- Result of the inner `for` loop: the batch completed (`finished`, flush
pending), a canvas/protocol change broke out of `'outer` (`broke`, no
flush), the session returned (`termed`), or the parse-outcome script was
exhausted with the session still reading (`ranOut`). -/
inductive BatchOut where
  | finished (script : List (Except ErrKind Command)) (s : FlutClientState)
  | broke (script : List (Except ErrKind Command)) (s : FlutClientState)
  | termed (r : Except ErrKind Unit) (s : FlutClientState)
  | ranOut (s : FlutClientState)
  deriving Repr

/-- Embeds the inner `for _ in 0..1000` loop of `process_socket` (lines
222–242) over a script of parse outcomes: on `Err(UnexpectedEof)` the local
counter is flushed to the global one and the session returns `Ok`; any
other parse error returns immediately — without a flush. -/
def runBatch : Nat → List (Except ErrKind Command) → FlutClientState → BatchOut
  | 0, script, s => .finished script s
  | _ + 1, [], s => .ranOut s
  | n + 1, r :: script, s =>
    match r with
    | .error k =>
      if k = .unexpectedEof then
        .termed (.ok ()) { s with global := s.global + s.counter }
      else
        .termed (.error k) s
    | .ok cmd =>
      match dispatch s cmd with
      | .cont s2 => runBatch n script s2
      | .brk s2 => .broke script s2
      | .term r s2 => .termed r s2

/-- Embeds `FlutClient::process_socket` (lines 184–247) over a script of
parse outcomes.  After a completed batch the local counter is added to the
global counter and reset (lines 243–244); a break re-enters the outer loop
with the (possibly changed) codec.  `fuel` bounds the number of outer-loop
iterations; a `none` outcome means the script ran out with the session
still waiting for input. -/
def process_socket : Nat → List (Except ErrKind Command) → FlutClientState →
    FlutClientState × Option (Except ErrKind Unit)
  | 0, _, s => (s, none)
  | fuel + 1, script, s =>
    match runBatch BATCH_N script s with
    | .finished script2 s2 =>
      process_socket fuel script2 { s2 with global := s2.global + s2.counter, counter := 0 }
    | .broke script2 s2 => process_socket fuel script2 s2
    | .termed r s2 => (s2, some r)
    | .ranOut s2 => (s2, none)

theorem runBatch_cons (n : Nat) (r : Except ErrKind Command)
    (script : List (Except ErrKind Command)) (s : FlutClientState) :
    runBatch (n + 1) (r :: script) s =
      match r with
      | .error k =>
        if k = .unexpectedEof then
          .termed (.ok ()) { s with global := s.global + s.counter }
        else
          .termed (.error k) s
      | .ok cmd =>
        match dispatch s cmd with
        | .cont s2 => runBatch n script s2
        | .brk s2 => .broke script s2
        | .term r s2 => .termed r s2 := rfl

theorem batchN_succ : BATCH_N = 999 + 1 := rfl

/-- Claim C10: for a canvas index at or beyond the number of configured
canvases, `set_pixel_rgba` leaves every canvas unchanged (yet the session's
`set_pixel_command` still increments the local pixel counter), and
`get_pixel` yields `None`, which `get_pixel_command` surfaces to the
session as an `InvalidInput` error — the same observable behaviour as
out-of-bounds coordinates. -/
theorem c10_out_of_range_canvas (s : FlutClientState) (canvas x y : Nat) (col : Color)
    (h : canvas ≥ s.grids.length) :
    set_pixel_rgba s.grids canvas x y (set_pixel_color_u32 col) = s.grids ∧
    get_pixel s.grids canvas x y = none ∧
    dispatch s (.getPixel canvas x y) = .term (.error .invalidInput) s ∧
    dispatch s (.setPixel canvas x y col) = .cont { s with counter := s.counter + 1 } := by
  have hnone : s.grids[canvas]? = none := List.getElem?_eq_none h
  have hset : set_pixel_rgba s.grids canvas x y (set_pixel_color_u32 col) = s.grids := by
    unfold set_pixel_rgba
    rw [hnone]
  have hget : get_pixel s.grids canvas x y = none := by
    unfold get_pixel
    rw [hnone]
  refine ⟨hset, hget, ?_, ?_⟩
  · show (match get_pixel_command s canvas x y with
      | .ok _ => StepOut.cont s
      | .error e => .term (.error e) s) = .term (.error .invalidInput) s
    unfold get_pixel_command
    rw [hget]
  · show StepOut.cont (set_pixel_command s canvas x y col) =
      .cont { s with counter := s.counter + 1 }
    unfold set_pixel_command
    rw [hset]

/-- Witness for `c10_out_of_range_canvas`: a single 1×1 canvas and canvas
index 1. -/
theorem c10_out_of_range_canvas_witness :
    (1 ≥ (FlutClientState.mk [Flut.init 1 1 0] .binaryParser 0 0).grids.length) ∧
    (set_pixel_rgba (FlutClientState.mk [Flut.init 1 1 0] .binaryParser 0 0).grids 1 0 0
        (set_pixel_color_u32 (.W8 5)) =
      (FlutClientState.mk [Flut.init 1 1 0] .binaryParser 0 0).grids ∧
    get_pixel (FlutClientState.mk [Flut.init 1 1 0] .binaryParser 0 0).grids 1 0 0 = none ∧
    dispatch (FlutClientState.mk [Flut.init 1 1 0] .binaryParser 0 0) (.getPixel 1 0 0) =
      .term (.error .invalidInput) (FlutClientState.mk [Flut.init 1 1 0] .binaryParser 0 0) ∧
    dispatch (FlutClientState.mk [Flut.init 1 1 0] .binaryParser 0 0) (.setPixel 1 0 0 (.W8 5)) =
      .cont { FlutClientState.mk [Flut.init 1 1 0] .binaryParser 0 0 with
              counter := (FlutClientState.mk [Flut.init 1 1 0] .binaryParser 0 0).counter + 1 }) :=
  ⟨by decide,
    c10_out_of_range_canvas (FlutClientState.mk [Flut.init 1 1 0] .binaryParser 0 0)
      1 0 0 (.W8 5) (by decide)⟩

theorem process_socket_succ (fuel : Nat) (script : List (Except ErrKind Command))
    (s : FlutClientState) :
    process_socket (fuel + 1) script s =
      match runBatch BATCH_N script s with
      | .finished script2 s2 =>
        process_socket fuel script2 { s2 with global := s2.global + s2.counter, counter := 0 }
      | .broke script2 s2 => process_socket fuel script2 s2
      | .termed r s2 => (s2, some r)
      | .ranOut s2 => (s2, none) := rfl

/-- Counterexample to claim C5 as stated: with the binary codec active, a
`ChangeCanvas` command does not surface a per-command `InvalidInput` and
keep the connection alive — `process_socket` propagates the codec's
`Unsupported` error with `?` and the session terminates at once, never
reaching the subsequent `Help` command or the clean EOF. -/
theorem c5_counterexample :
    process_socket 2 [.ok (.changeCanvas 0), .ok .help, .error .unexpectedEof]
      ⟨[Flut.init 1 1 0], .binaryParser, 0, 0⟩ =
      (⟨[Flut.init 1 1 0], .binaryParser, 0, 0⟩, some (.error .unsupported)) ∧
    ErrKind.unsupported ≠ ErrKind.invalidInput :=
  ⟨rfl, by decide⟩

theorem runBatch_cons_ok_term (n : Nat) (cmd : Command)
    (script : List (Except ErrKind Command)) (s : FlutClientState)
    (r : Except ErrKind Unit) (s2 : FlutClientState)
    (h : dispatch s cmd = .term r s2) :
    runBatch (n + 1) (.ok cmd :: script) s = .termed r s2 := by
  rw [runBatch_cons]
  show (match dispatch s cmd with
    | .cont s2 => runBatch n script s2
    | .brk s2 => BatchOut.broke script s2
    | .term r s2 => BatchOut.termed r s2) = .termed r s2
  rw [h]

theorem runBatch_cons_ok_brk (n : Nat) (cmd : Command)
    (script : List (Except ErrKind Command)) (s s2 : FlutClientState)
    (h : dispatch s cmd = .brk s2) :
    runBatch (n + 1) (.ok cmd :: script) s = .broke script s2 := by
  rw [runBatch_cons]
  show (match dispatch s cmd with
    | .cont s2 => runBatch n script s2
    | .brk s2 => BatchOut.broke script s2
    | .term r s2 => BatchOut.termed r s2) = .broke script s2
  rw [h]

theorem runBatch_cons_ok_cont (n : Nat) (cmd : Command)
    (script : List (Except ErrKind Command)) (s s2 : FlutClientState)
    (h : dispatch s cmd = .cont s2) :
    runBatch (n + 1) (.ok cmd :: script) s = runBatch n script s2 := by
  rw [runBatch_cons]
  show (match dispatch s cmd with
    | .cont s2 => runBatch n script s2
    | .brk s2 => BatchOut.broke script s2
    | .term r s2 => BatchOut.termed r s2) = runBatch n script s2
  rw [h]

theorem dispatch_changeCanvas (s : FlutClientState) (c : Nat) :
    dispatch s (.changeCanvas c) =
      match change_canvas_command s c with
      | .ok s2 => .brk s2
      | .error e => .term (.error e) s := rfl

theorem change_canvas_command_text (grids : List (Flut Nat)) (counter global cv c : Nat) :
    change_canvas_command ⟨grids, .textParser ⟨cv⟩, counter, global⟩ c =
      if c < GRID_LENGTH then
        .ok ⟨grids, .textParser ⟨c⟩, counter, global⟩
      else .error .invalidInput := by
  simp only [change_canvas_command, TextParser.change_canvas]
  by_cases h : c < GRID_LENGTH
  · rw [if_pos h, if_pos h]
  · rw [if_neg h, if_neg h]

/-- Claim C5 (amended): a `ChangeCanvas(c)` whose codec-level
`change_canvas` fails terminates the session with that error propagated as
the session result — `Unsupported` on the stateless binary codec, and
`InvalidInput` on the text codec when `c ≥ GRID_LENGTH`; nothing is
surfaced to the client per-command and later commands are not processed.
Only a successful text-codec `ChangeCanvas` continues the session, with
the codec's canvas updated. -/
theorem c5_change_canvas_error_terminates (grids : List (Flut Nat))
    (counter global c : Nat) (script : List (Except ErrKind Command)) (fuel : Nat) :
    (process_socket (fuel + 1) (.ok (.changeCanvas c) :: script)
        ⟨grids, .binaryParser, counter, global⟩ =
      (⟨grids, .binaryParser, counter, global⟩, some (.error .unsupported))) ∧
    (∀ cv, c ≥ GRID_LENGTH →
      process_socket (fuel + 1) (.ok (.changeCanvas c) :: script)
          ⟨grids, .textParser ⟨cv⟩, counter, global⟩ =
        (⟨grids, .textParser ⟨cv⟩, counter, global⟩, some (.error .invalidInput))) ∧
    (∀ cv, c < GRID_LENGTH →
      process_socket (fuel + 1) (.ok (.changeCanvas c) :: script)
          ⟨grids, .textParser ⟨cv⟩, counter, global⟩ =
        process_socket fuel script ⟨grids, .textParser ⟨c⟩, counter, global⟩) := by
  refine ⟨?_, ?_, ?_⟩
  · rw [process_socket_succ, batchN_succ, runBatch_cons]
    rfl
  · intro cv hc
    have hdisp : dispatch ⟨grids, .textParser ⟨cv⟩, counter, global⟩ (.changeCanvas c) =
        .term (.error .invalidInput) ⟨grids, .textParser ⟨cv⟩, counter, global⟩ := by
      rw [dispatch_changeCanvas, change_canvas_command_text, if_neg (by omega)]
    rw [process_socket_succ, batchN_succ,
      runBatch_cons_ok_term 999 _ script _ _ _ hdisp]
  · intro cv hc
    have hdisp : dispatch ⟨grids, .textParser ⟨cv⟩, counter, global⟩ (.changeCanvas c) =
        .brk ⟨grids, .textParser ⟨c⟩, counter, global⟩ := by
      rw [dispatch_changeCanvas, change_canvas_command_text, if_pos hc]
    rw [process_socket_succ, batchN_succ,
      runBatch_cons_ok_brk 999 _ script _ _ hdisp]

/-- Witness for `c5_change_canvas_error_terminates`: canvas index 1 on the
text codec (out of range, `GRID_LENGTH = 1`) terminates the session with
`InvalidInput`. -/
theorem c5_change_canvas_error_terminates_witness :
    (1 ≥ GRID_LENGTH) ∧
    process_socket 1 [.ok (.changeCanvas 1)]
        ⟨[Flut.init 1 1 0], .textParser ⟨0⟩, 0, 0⟩ =
      (⟨[Flut.init 1 1 0], .textParser ⟨0⟩, 0, 0⟩, some (.error .invalidInput)) :=
  ⟨by decide,
    (c5_change_canvas_error_terminates [Flut.init 1 1 0] 0 0 1 [] 0).2.1 0 (by decide)⟩

/-- Counterexample to claim C4 as stated: on a cleanly closed stream the
text codec does not return `UnexpectedEof` — `read_line` yields the empty
line, no keyword test matches, and `parse` returns `InvalidInput`. -/
theorem c4_counterexample :
    TextParser.parse ⟨0⟩ ([] : List Char) = .error .invalidInput ∧
    ErrKind.invalidInput ≠ ErrKind.unexpectedEof :=
  ⟨rfl, by decide⟩

/-- Claim C4 (amended): on a cleanly closed stream the binary codec
returns `UnexpectedEof` and the session then ends with success (flushing
the local counter); the text codec instead returns `InvalidInput`, which
the session treats as a fatal error — so a clean disconnect ends the
session with success only while the binary codec is active. -/
theorem c4_clean_close_amended :
    (BinaryParser.parse ([] : List Nat) = .error .unexpectedEof) ∧
    (∀ p : TextParser, p.parse ([] : List Char) = .error .invalidInput) ∧
    (∀ fuel (s : FlutClientState),
      process_socket (fuel + 1) [.error .unexpectedEof] s =
        ({ s with global := s.global + s.counter }, some (.ok ()))) ∧
    (∀ fuel (s : FlutClientState),
      process_socket (fuel + 1) [.error .invalidInput] s =
        (s, some (.error .invalidInput))) := by
  refine ⟨rfl, fun p => rfl, fun fuel s => ?_, fun fuel s => ?_⟩
  · rw [process_socket_succ, batchN_succ, runBatch_cons]
    rfl
  · rw [process_socket_succ, batchN_succ, runBatch_cons]
    rfl

/-- A script of successfully parsed `SetPixel` commands. -/
def setPixelScript (L : List (Nat × Nat × Nat × Color)) :
    List (Except ErrKind Command) :=
  L.map fun q => .ok (.setPixel q.1 q.2.1 q.2.2.1 q.2.2.2)

/-- The cumulative effect of a sequence of `SetPixel` commands on the
canvases. -/
def applyPixels (grids : List (Flut Nat)) (L : List (Nat × Nat × Nat × Color)) :
    List (Flut Nat) :=
  L.foldl (fun gs q => set_pixel_rgba gs q.1 q.2.1 q.2.2.1 (set_pixel_color_u32 q.2.2.2)) grids

theorem runBatch_err (m : Nat) (k : ErrKind) (s : FlutClientState) :
    runBatch (m + 1) [.error k] s =
      if k = .unexpectedEof then
        .termed (.ok ()) { s with global := s.global + s.counter }
      else .termed (.error k) s :=
  runBatch_cons m (.error k) [] s

theorem runBatch_empty (m : Nat) (s : FlutClientState) :
    runBatch (m + 1) [] s = .ranOut s := rfl

/-- Running the inner loop through a prefix of `SetPixel` commands: each
one continues the loop, adds one to the local counter, and applies the
write. -/
theorem runBatch_setPixels_front (tail : List (Except ErrKind Command))
    (L : List (Nat × Nat × Nat × Color)) :
    ∀ (n : Nat) (grids : List (Flut Nat)) (parser : ParserTypes) (counter global : Nat),
    L.length ≤ n →
    runBatch n (setPixelScript L ++ tail) ⟨grids, parser, counter, global⟩ =
      runBatch (n - L.length) tail
        ⟨applyPixels grids L, parser, counter + L.length, global⟩ := by
  induction L with
  | nil => intro n grids parser counter global h; rfl
  | cons q L ih =>
    intro n grids parser counter global h
    obtain ⟨m, rfl⟩ : ∃ m, n = m + 1 := ⟨n - 1, by simp at h; omega⟩
    show runBatch (m + 1)
      (.ok (.setPixel q.1 q.2.1 q.2.2.1 q.2.2.2) :: (setPixelScript L ++ tail))
      ⟨grids, parser, counter, global⟩ = _
    rw [runBatch_cons_ok_cont m (.setPixel q.1 q.2.1 q.2.2.1 q.2.2.2)
      (setPixelScript L ++ tail) ⟨grids, parser, counter, global⟩
      ⟨set_pixel_rgba grids q.1 q.2.1 q.2.2.1 (set_pixel_color_u32 q.2.2.2), parser,
        counter + 1, global⟩ rfl]
    have h2 := h
    rw [List.length_cons] at h2
    rw [ih m _ parser (counter + 1) global (by omega)]
    rw [show (m + 1) - (q :: L).length = m - L.length by rw [List.length_cons]; omega]
    rw [show counter + (q :: L).length = (counter + 1) + L.length by rw [List.length_cons]; omega]
    rfl

/-- Running the inner loop to completion over `SetPixel` commands: exactly
`n` are consumed and the batch finishes with the counter incremented by
`n` and no flush yet. -/
theorem runBatch_setPixels_finished (tail : List (Except ErrKind Command)) :
    ∀ (n : Nat) (L : List (Nat × Nat × Nat × Color)) (grids : List (Flut Nat))
      (parser : ParserTypes) (counter global : Nat),
    n ≤ L.length →
    runBatch n (setPixelScript L ++ tail) ⟨grids, parser, counter, global⟩ =
      .finished (setPixelScript (L.drop n) ++ tail)
        ⟨applyPixels grids (L.take n), parser, counter + n, global⟩ := by
  intro n
  induction n with
  | zero => intro L grids parser counter global h; rfl
  | succ m ih =>
    intro L grids parser counter global h
    obtain ⟨q, L, rfl⟩ : ∃ q L2, L = q :: L2 := by
      cases L with
      | nil => simp at h
      | cons a b => exact ⟨a, b, rfl⟩
    show runBatch (m + 1)
      (.ok (.setPixel q.1 q.2.1 q.2.2.1 q.2.2.2) :: (setPixelScript L ++ tail))
      ⟨grids, parser, counter, global⟩ = _
    rw [runBatch_cons_ok_cont m (.setPixel q.1 q.2.1 q.2.2.1 q.2.2.2)
      (setPixelScript L ++ tail) ⟨grids, parser, counter, global⟩
      ⟨set_pixel_rgba grids q.1 q.2.1 q.2.2.1 (set_pixel_color_u32 q.2.2.2), parser,
        counter + 1, global⟩ rfl]
    have h2 := h
    rw [List.length_cons] at h2
    rw [ih L _ parser (counter + 1) global (by omega)]
    rw [show counter + (m + 1) = (counter + 1) + m by omega]
    rfl

theorem process_socket_setPixels_eof :
    ∀ (fuel : Nat) (L : List (Nat × Nat × Nat × Color)) (grids : List (Flut Nat))
      (parser : ParserTypes) (counter global : Nat),
    L.length < BATCH_N * fuel →
    ∃ cfin, process_socket fuel (setPixelScript L ++ [.error .unexpectedEof])
        ⟨grids, parser, counter, global⟩ =
      (⟨applyPixels grids L, parser, cfin, global + (counter + L.length)⟩,
        some (.ok ())) := by
  intro fuel
  induction fuel with
  | zero =>
    intro L grids parser counter global h
    rw [Nat.mul_zero] at h
    exact absurd h (Nat.not_lt_zero _)
  | succ fuel ih =>
    intro L grids parser counter global h
    by_cases hL : L.length < BATCH_N
    · refine ⟨counter + L.length, ?_⟩
      rw [process_socket_succ,
        runBatch_setPixels_front [.error .unexpectedEof] L BATCH_N grids parser counter global
          (by omega)]
      obtain ⟨m, hm⟩ : ∃ m, BATCH_N - L.length = m + 1 :=
        ⟨BATCH_N - L.length - 1, by unfold BATCH_N at hL ⊢; omega⟩
      rw [hm, runBatch_err, if_pos rfl]
    · push_neg at hL
      obtain ⟨cfin, hrec⟩ := ih (L.drop BATCH_N) (applyPixels grids (L.take BATCH_N)) parser 0
        (global + (counter + BATCH_N))
        (by rw [List.length_drop]; unfold BATCH_N at hL h ⊢; omega)
      refine ⟨cfin, ?_⟩
      rw [process_socket_succ,
        runBatch_setPixels_finished [.error .unexpectedEof] BATCH_N L grids parser counter global
          hL]
      show process_socket fuel (setPixelScript (L.drop BATCH_N) ++ [.error .unexpectedEof])
          ⟨applyPixels grids (L.take BATCH_N), parser, 0, global + (counter + BATCH_N)⟩ =
        (⟨applyPixels grids L, parser, cfin, global + (counter + L.length)⟩, some (.ok ()))
      rw [hrec]
      have hgr : applyPixels (applyPixels grids (L.take BATCH_N)) (L.drop BATCH_N) =
          applyPixels grids L := by
        unfold applyPixels
        rw [← List.foldl_append, List.take_append_drop]
      rw [hgr, List.length_drop]
      rw [show global + (counter + BATCH_N) + (0 + (L.length - BATCH_N)) =
        global + (counter + L.length) by unfold BATCH_N at hL ⊢; omega]

theorem process_socket_setPixels_ranOut :
    ∀ (fuel : Nat) (L : List (Nat × Nat × Nat × Color)) (grids : List (Flut Nat))
      (parser : ParserTypes) (global : Nat),
    L.length < BATCH_N * fuel →
    process_socket fuel (setPixelScript L) ⟨grids, parser, 0, global⟩ =
      (⟨applyPixels grids L, parser, L.length % BATCH_N,
        global + BATCH_N * (L.length / BATCH_N)⟩, none) := by
  intro fuel
  induction fuel with
  | zero =>
    intro L grids parser global h
    rw [Nat.mul_zero] at h
    exact absurd h (Nat.not_lt_zero _)
  | succ fuel ih =>
    intro L grids parser global h
    by_cases hL : L.length < BATCH_N
    · rw [process_socket_succ,
        show setPixelScript L = setPixelScript L ++ [] from (List.append_nil _).symm,
        runBatch_setPixels_front [] L BATCH_N grids parser 0 global (by omega)]
      obtain ⟨m, hm⟩ : ∃ m, BATCH_N - L.length = m + 1 :=
        ⟨BATCH_N - L.length - 1, by unfold BATCH_N at hL ⊢; omega⟩
      rw [hm, runBatch_empty]
      rw [Nat.mod_eq_of_lt hL, Nat.div_eq_of_lt hL, Nat.mul_zero, Nat.add_zero]
      show ((⟨applyPixels grids L, parser, 0 + L.length, global⟩ : FlutClientState),
          (none : Option (Except ErrKind Unit))) =
        ((⟨applyPixels grids L, parser, L.length, global⟩ : FlutClientState),
          (none : Option (Except ErrKind Unit)))
      rw [Nat.zero_add]
    · push_neg at hL
      rw [process_socket_succ,
        show setPixelScript L = setPixelScript L ++ [] from (List.append_nil _).symm,
        runBatch_setPixels_finished [] BATCH_N L grids parser 0 global hL]
      show process_socket fuel (setPixelScript (L.drop BATCH_N) ++ [])
          ⟨applyPixels grids (L.take BATCH_N), parser, 0, global + (0 + BATCH_N)⟩ =
        (⟨applyPixels grids L, parser, L.length % BATCH_N,
          global + BATCH_N * (L.length / BATCH_N)⟩, none)
      rw [List.append_nil,
        ih (L.drop BATCH_N) (applyPixels grids (L.take BATCH_N)) parser (global + (0 + BATCH_N))
          (by rw [List.length_drop]; unfold BATCH_N at hL h ⊢; omega)]
      have hgr : applyPixels (applyPixels grids (L.take BATCH_N)) (L.drop BATCH_N) =
          applyPixels grids L := by
        unfold applyPixels
        rw [← List.foldl_append, List.take_append_drop]
      rw [hgr, List.length_drop]
      rw [show (L.length - BATCH_N) % BATCH_N = L.length % BATCH_N by
        unfold BATCH_N at hL ⊢; omega]
      rw [show global + (0 + BATCH_N) + BATCH_N * ((L.length - BATCH_N) / BATCH_N) =
        global + BATCH_N * (L.length / BATCH_N) by unfold BATCH_N at hL ⊢; omega]

theorem applyPixels_oob (k : Nat) :
    applyPixels [Flut.init 1 1 0] (List.replicate k (0, 5, 5, Color.W8 1)) =
      [Flut.init 1 1 0] := by
  induction k with
  | zero => rfl
  | succ n ih => exact ih

/-- Counterexample to claim C3 as stated, in three parts.  First: an
out-of-bounds `SetPixel` followed by a clean EOF increases the global
counter by 1 although zero in-bounds writes happened (the canvases are
unchanged), so the counter does not count in-bounds writes.  Second: an
in-bounds `SetPixel` followed by a non-EOF parse error leaves the global
counter at 0 although one in-bounds write happened — the local count is
not flushed on errors other than `UnexpectedEof`.  Third: `ChangeCanvas`
breaks out of the batch before the flush, so after 999 `SetPixel`s, a
`ChangeCanvas`, and 999 more `SetPixel`s the unflushed local count is 1998
and the global counter still 0 — the lag exceeds `BATCH_N - 1`. -/
theorem c3_counterexample :
    (process_socket 1 [.ok (.setPixel 0 5 5 (.W8 9)), .error .unexpectedEof]
        ⟨[Flut.init 1 1 0], .binaryParser, 0, 0⟩ =
      (⟨[Flut.init 1 1 0], .binaryParser, 1, 1⟩, some (.ok ()))) ∧
    (process_socket 1 [.ok (.setPixel 0 0 0 (.W8 9)), .error .invalidInput]
        ⟨[Flut.init 1 1 0], .binaryParser, 0, 0⟩ =
      (⟨[(Flut.init 1 1 0).set 0 0 (set_pixel_color_u32 (.W8 9))], .binaryParser, 1, 0⟩,
        some (.error .invalidInput))) ∧
    (((Flut.init 1 1 0).set 0 0 (set_pixel_color_u32 (.W8 9))).get 0 0 =
      some (set_pixel_color_u32 (.W8 9))) ∧
    (process_socket 2
        (setPixelScript (List.replicate 999 (0, 5, 5, Color.W8 1)) ++
          .ok (.changeCanvas 0) :: setPixelScript (List.replicate 999 (0, 5, 5, Color.W8 1)))
        ⟨[Flut.init 1 1 0], .textParser ⟨0⟩, 0, 0⟩ =
      (⟨[Flut.init 1 1 0], .textParser ⟨0⟩, 1998, 0⟩, none)) ∧
    BATCH_N - 1 < 1998 := by
  refine ⟨rfl, rfl, rfl, ?_, by decide⟩
  have h999 : (List.replicate 999 ((0, 5, 5, Color.W8 1) : Nat × Nat × Nat × Color)).length =
      999 := by rw [List.length_replicate]
  rw [show (2 : Nat) = 1 + 1 from rfl, process_socket_succ]
  rw [runBatch_setPixels_front
    (.ok (.changeCanvas 0) :: setPixelScript (List.replicate 999 (0, 5, 5, Color.W8 1)))
    (List.replicate 999 (0, 5, 5, Color.W8 1)) BATCH_N [Flut.init 1 1 0] (.textParser ⟨0⟩) 0 0
    (by rw [h999]; unfold BATCH_N; omega)]
  rw [show BATCH_N -
      (List.replicate 999 ((0, 5, 5, Color.W8 1) : Nat × Nat × Nat × Color)).length = 0 + 1 by
    rw [h999]; decide]
  rw [applyPixels_oob 999, h999]
  have hbrk : dispatch ⟨[Flut.init 1 1 0], .textParser ⟨0⟩, 0 + 999, 0⟩ (.changeCanvas 0) =
      .brk ⟨[Flut.init 1 1 0], .textParser ⟨0⟩, 0 + 999, 0⟩ := by
    rw [dispatch_changeCanvas, change_canvas_command_text,
      if_pos (by decide : (0 : Nat) < GRID_LENGTH)]
  rw [runBatch_cons_ok_brk 0 (.changeCanvas 0)
    (setPixelScript (List.replicate 999 (0, 5, 5, Color.W8 1)))
    ⟨[Flut.init 1 1 0], .textParser ⟨0⟩, 0 + 999, 0⟩
    ⟨[Flut.init 1 1 0], .textParser ⟨0⟩, 0 + 999, 0⟩ hbrk]
  show process_socket 1 (setPixelScript (List.replicate 999 (0, 5, 5, Color.W8 1)))
      ⟨[Flut.init 1 1 0], .textParser ⟨0⟩, 0 + 999, 0⟩ =
    (⟨[Flut.init 1 1 0], .textParser ⟨0⟩, 1998, 0⟩, none)
  rw [show (1 : Nat) = 0 + 1 from rfl, process_socket_succ]
  rw [show setPixelScript (List.replicate 999 ((0, 5, 5, Color.W8 1) : Nat × Nat × Nat × Color)) =
    setPixelScript (List.replicate 999 (0, 5, 5, Color.W8 1)) ++ [] from
    (List.append_nil _).symm]
  rw [runBatch_setPixels_front [] (List.replicate 999 (0, 5, 5, Color.W8 1)) BATCH_N
    [Flut.init 1 1 0] (.textParser ⟨0⟩) (0 + 999) 0 (by rw [h999]; unfold BATCH_N; omega)]
  rw [show BATCH_N -
      (List.replicate 999 ((0, 5, 5, Color.W8 1) : Nat × Nat × Nat × Color)).length = 0 + 1 by
    rw [h999]; decide]
  rw [runBatch_empty, applyPixels_oob 999, h999]

/-- Claim C3 (amended): on one session, every completed batch of
`BATCH_N = 1000` parsed commands adds the session-local counter to the
global `COUNTER` and resets it, and a session terminated by
`UnexpectedEof` flushes the remainder, so it increases `COUNTER` by
exactly the number of parsed `SetPixel` commands — in bounds or not (the
canvases change by exactly the in-bounds writes).  For an uninterrupted
stream of `SetPixel` commands the unflushed local count stays below
`BATCH_N`, so `COUNTER` lags by at most `BATCH_N - 1` at read points.  A
session ending in any other parse or I/O error does not flush the
remaining local count. -/
theorem c3_counter_batching_amended :
    (∀ (fuel : Nat) (L : List (Nat × Nat × Nat × Color)) (grids : List (Flut Nat))
      (parser : ParserTypes) (counter global : Nat),
      L.length < BATCH_N * fuel →
      ∃ cfin, process_socket fuel (setPixelScript L ++ [.error .unexpectedEof])
          ⟨grids, parser, counter, global⟩ =
        (⟨applyPixels grids L, parser, cfin, global + (counter + L.length)⟩,
          some (.ok ()))) ∧
    (∀ (fuel : Nat) (L : List (Nat × Nat × Nat × Color)) (grids : List (Flut Nat))
      (parser : ParserTypes) (global : Nat),
      L.length < BATCH_N * fuel →
      process_socket fuel (setPixelScript L) ⟨grids, parser, 0, global⟩ =
        (⟨applyPixels grids L, parser, L.length % BATCH_N,
          global + BATCH_N * (L.length / BATCH_N)⟩, none) ∧
      L.length % BATCH_N ≤ BATCH_N - 1) ∧
    (∀ (fuel : Nat) (s : FlutClientState) (k : ErrKind), k ≠ .unexpectedEof →
      process_socket (fuel + 1) [.error k] s = (s, some (.error k))) := by
  refine ⟨process_socket_setPixels_eof, ?_, ?_⟩
  · intro fuel L grids parser global h
    exact ⟨process_socket_setPixels_ranOut fuel L grids parser global h,
      by unfold BATCH_N; omega⟩
  · intro fuel s k hk
    rw [process_socket_succ, batchN_succ, runBatch_err, if_neg hk]

/-- Witness for `c3_counter_batching_amended`: the no-flush-on-error
clause at a concrete `InvalidInput` directly after connection start. -/
theorem c3_counter_batching_amended_witness :
    (ErrKind.invalidInput ≠ ErrKind.unexpectedEof) ∧
    process_socket (0 + 1) [.error .invalidInput]
        ⟨[Flut.init 1 1 0], .binaryParser, 0, 0⟩ =
      (⟨[Flut.init 1 1 0], .binaryParser, 0, 0⟩, some (.error .invalidInput)) :=
  ⟨by decide,
    c3_counter_batching_amended.2.2 0 ⟨[Flut.init 1 1 0], .binaryParser, 0, 0⟩
      .invalidInput (by decide)⟩

/-- Embeds `Flut::check_changed` (`src/grid.rs` lines 95–104),
parameterized by the hash function (`DefaultHasher` over the cell vector):
if the hash equals the cached one, report no change; otherwise store the
new hash — before any encoding happens — and report a change. -/
def Flut.check_changed (hashFn : List Nat → Nat) (g : Flut Nat) :
    Bool × Flut Nat :=
  let previous := g.last_hash
  if hashFn g.cells = previous then (false, g)
  else (true, { g with last_hash := hashFn g.cells })

/-- Embeds `Flut::update_jpg_buffer` (`src/grid.rs` lines 106–118),
parameterized by the JPEG encoder at quality 50 (the `image` crate, out of
scope): if nothing changed, return; otherwise clear the buffer and encode
into it.  On an encoder error the Rust code only logs — the buffer is left
holding whatever the failed encoder wrote after the clear, modelled by the
`.error` payload. -/
def Flut.update_jpg_buffer (hashFn : List Nat → Nat)
    (encodeFn : List Nat → Except (List Nat) (List Nat)) (g : Flut Nat) :
    Flut Nat :=
  match Flut.check_changed hashFn g with
  | (false, g2) => g2
  | (true, g2) =>
    match encodeFn g2.cells with
    | .ok buf => { g2 with jpgbuf := buf }
    | .error pbytes => { g2 with jpgbuf := pbytes }

/-- Counterexample to claim C9 as stated: a tick whose encode step fails is
not skipped, and afterwards the cached bytes are not the encoding of the
grid — `check_changed` has already replaced the cached hash and the buffer
was cleared for the encoder, so the failed tick leaves the new hash with a
buffer that holds no encoding at all (here: empty). -/
theorem c9_counterexample :
    Flut.update_jpg_buffer (fun _ => 5) (fun _ => .error [])
        ⟨1, 1, [7], 0, [9, 9]⟩ =
      ⟨1, 1, [7], 5, []⟩ ∧
    (⟨1, 1, [7], 5, []⟩ : Flut Nat).last_hash = (fun (_ : List Nat) => 5) [7] ∧
    (⟨1, 1, [7], 5, []⟩ : Flut Nat).jpgbuf ≠ (⟨1, 1, [7], 0, [9, 9]⟩ : Flut Nat).jpgbuf :=
  ⟨rfl, rfl, by decide⟩

/-- Claim C9 (amended): on an encoder tick, if the hash of the cell array
equals the cached hash the tick is a no-op (buffer and hash untouched);
otherwise the cached hash is updated to the new hash of the (unchanged)
cells first, and then: if the encode succeeds the buffer is replaced by
the encoding, while if the encode fails the buffer is left with only what
the failed encoder wrote after the clear — so after a dirty tick the
cached hash always equals the grid hash, but the cached bytes are the
encoding of the grid only when the encode step succeeded. -/
theorem c9_encoder_tick_amended (hashFn : List Nat → Nat)
    (encodeFn : List Nat → Except (List Nat) (List Nat)) (g : Flut Nat) :
    (hashFn g.cells = g.last_hash → Flut.update_jpg_buffer hashFn encodeFn g = g) ∧
    (hashFn g.cells ≠ g.last_hash →
      (Flut.update_jpg_buffer hashFn encodeFn g).cells = g.cells ∧
      (Flut.update_jpg_buffer hashFn encodeFn g).last_hash = hashFn g.cells ∧
      (∀ buf, encodeFn g.cells = .ok buf →
        (Flut.update_jpg_buffer hashFn encodeFn g).jpgbuf = buf) ∧
      (∀ pbytes, encodeFn g.cells = .error pbytes →
        (Flut.update_jpg_buffer hashFn encodeFn g).jpgbuf = pbytes)) := by
  constructor
  · intro h
    unfold Flut.update_jpg_buffer Flut.check_changed
    rw [if_pos h]
  · intro h
    have hstep : Flut.update_jpg_buffer hashFn encodeFn g =
        match encodeFn g.cells with
        | .ok buf => { g with last_hash := hashFn g.cells, jpgbuf := buf }
        | .error pbytes => { g with last_hash := hashFn g.cells, jpgbuf := pbytes } := by
      unfold Flut.update_jpg_buffer Flut.check_changed
      rw [if_neg h]
    cases henc : encodeFn g.cells with
    | ok buf =>
      rw [hstep, henc]
      refine ⟨rfl, rfl, fun b hb => ?_, fun p hp => ?_⟩
      · cases hb
        rfl
      · exact Except.noConfusion hp
    | error pbytes =>
      rw [hstep, henc]
      refine ⟨rfl, rfl, fun b hb => ?_, fun p hp => ?_⟩
      · exact Except.noConfusion hb
      · cases hp
        rfl

/-- Witness for `c9_encoder_tick_amended`: a dirty tick with a succeeding
encoder on a concrete 1×1 grid. -/
theorem c9_encoder_tick_amended_witness :
    ((fun (_ : List Nat) => 5) [7] ≠ (0 : Nat)) ∧
    ((5 : Nat) = 0 → Flut.update_jpg_buffer (fun _ => 5) (fun c => .ok (3 :: c))
        ⟨1, 1, [7], 0, [9]⟩ = ⟨1, 1, [7], 0, [9]⟩) ∧
    (Flut.update_jpg_buffer (fun _ => 5) (fun c => .ok (3 :: c))
        ⟨1, 1, [7], 0, [9]⟩).jpgbuf = [3, 7] := by
  have h := c9_encoder_tick_amended (fun _ => 5) (fun c => .ok (3 :: c)) ⟨1, 1, [7], 0, [9]⟩
  exact ⟨by decide, fun habs => absurd habs (by decide),
    (h.2 (by decide)).2.2.1 [3, 7] rfl⟩
